import Mathlib

/-!
# terraform-provider-gitlab: a shallow embedding of five resources

The Go sources embedded here are

* `gitlab/resource_gitlab_pipeline_schedule_variable.go`
* `gitlab/data_source_gitlab_project_protected_branches.go`
* `gitlab/resource_gitlab_project_protected_environment.go`
* `gitlab/resource_gitlab_project_freeze_period.go`
* `gitlab/resource_gitlab_user.go`

Conventions.

* A Go `string` is a Lean `String`; a Go `int` is an `Int` kept inside the
  64-bit range by `wrapInt` wherever the source does arithmetic on it.
* A Go `error` is a value of the inductive type `Error`; `nil` is `none`.
* `*schema.ResourceData` is the record `ResourceData`; a function that mutates
  it through the pointer returns the new record next to its Go results.
* The remote API client is a record of functions (`Client`); every remote call
  answers with a `Call`, the Go triple `(value, response, error)`.
* Loops whose exit depends on the remote answers take a `fuel` argument and
  end in `Outcome.outOfFuel` when it is used up.
-/

namespace Gitlab

deriving instance DecidableEq for Except

/-! ## Go standard library: `strings.Split`, `strconv.Atoi`, `strconv.Itoa` -/

/-- The parts of a character sequence between occurrences of `sep`
(`strings.Split` with a one-character separator): `n` occurrences give
`n + 1` parts, the empty sequence gives one empty part. -/
def splitChars (sep : Char) : List Char → List (List Char)
  | [] => [[]]
  | c :: cs =>
    if c = sep then [] :: splitChars sep cs
    else
      match splitChars sep cs with
      | [] => [[c]]
      | p :: ps => (c :: p) :: ps

/-- Go `strings.Split(s, sep)` for a separator of one character. -/
def Split (s : String) (sep : Char) : List String :=
  (splitChars sep s.data).map String.mk

/-- The errors the embedded functions return. -/
inductive Error where
  /-- `strconv.ErrSyntax` wrapped in a `NumError` for the given input. -/
  | atoiSyntax (input : String)
  /-- `strconv.ErrRange` wrapped in a `NumError` for the given input. -/
  | atoiRange (input : String)
  /-- An error value produced by the client library for a remote call. -/
  | remote (code : Nat)
  /-- The `fmt.Errorf` of `resourceGitlabPipelineScheduleVariableImporter`. -/
  | invalidImportFormat
  /-- The error of `d.Set` on a key outside the schema or a value of another type. -/
  | invalidSet (key : String)
  /-- The error of `parseTwoPartID`: unexpected ID format. -/
  | unexpectedIDFormat (id : String)
  /-- The error of `hashstructure.Hash`. -/
  | hashFailed
  /-- `fmt.Errorf("error expanding deploy_access_levels: %v", err)`. -/
  | expandingDeployAccessLevels (err : Error)
  /-- `fmt.Errorf("feature Protected Environments is not available")`. -/
  | featureNotAvailable
  /-- `fmt.Errorf("error getting gitlab project %q protected environment %q: %v", ...)`. -/
  | gettingProtectedEnvironment (project environment : String) (err : Error)
  /-- `fmt.Errorf("error setting deploy_access_levels: %v", err)`. -/
  | settingDeployAccessLevels (err : Error)
  /-- `fmt.Errorf("%s cannot be converted to int", d.Id())`. -/
  | cannotBeConvertedToInt (id : String)
  /-- `fmt.Errorf("FreezePeriod %d no longer exists in gitlab", freezePeriodID)`. -/
  | freezePeriodNoLongerExists (freezePeriodID : Int)
  deriving DecidableEq, Repr

/-- The least value of a 64-bit Go `int`. -/
def minInt : Int := -9223372036854775808

/-- The greatest value of a 64-bit Go `int`. -/
def maxInt : Int := 9223372036854775807

/-- Two's-complement wrap-around of a 64-bit Go `int`: the representative of
`i` modulo `2 ^ 64` between `minInt` and `maxInt`. -/
def wrapInt (i : Int) : Int :=
  (i + 9223372036854775808) % 18446744073709551616 - 9223372036854775808

/-- The value of a decimal digit, `none` for any other character
(`ch -= '0'; if ch > 9` in `strconv`). -/
def digitValue (c : Char) : Option Nat :=
  if '0' ≤ c ∧ c ≤ '9' then some (c.toNat - '0'.toNat) else none

/-- How the scan of `strconv.ParseUint` over a sequence of characters ends. -/
inductive UintScan where
  /-- Every character was a digit and the number fits in 64 bits. -/
  | value (un : Nat)
  /-- A character that is not a digit was met: `ErrSyntax`. -/
  | syntaxError
  /-- The number passed `2 ^ 64 - 1` at some digit: `ErrRange`, returned at that
  digit, before the characters after it are looked at. -/
  | rangeError
  deriving DecidableEq, Repr

/-- The scan of `strconv.ParseUint(s, 10, 64)` over the characters left, after
the number `acc` read so far: left to right, a character that is not a digit
ends it with a syntax error, a digit that takes the number past `2 ^ 64 - 1`
ends it with a range error. -/
def parseDigits : List Char → Nat → UintScan
  | [], acc => UintScan.value acc
  | c :: cs, acc =>
    match digitValue c with
    | none => UintScan.syntaxError
    | some v =>
      if acc * 10 + v ≥ 18446744073709551616 then UintScan.rangeError
      else parseDigits cs (acc * 10 + v)

/-- Go `strconv.Atoi` on a 64-bit platform: an optional sign followed by one
or more decimal digits. The Go results are `(int, error)`: a syntax error
comes with `0`, a range error with the nearest bound. -/
def Atoi (s : String) : Int × Option Error :=
  let body : List Char × Bool :=
    match s.data with
    | '-' :: rest => (rest, true)
    | '+' :: rest => (rest, false)
    | cs => (cs, false)
  match body.1 with
  | [] => (0, some (Error.atoiSyntax s))
  | c :: cs =>
    match parseDigits (c :: cs) 0 with
    | UintScan.syntaxError => (0, some (Error.atoiSyntax s))
    | UintScan.rangeError =>
      if body.2 then (minInt, some (Error.atoiRange s)) else (maxInt, some (Error.atoiRange s))
    | UintScan.value un =>
      if body.2 then
        if un > 9223372036854775808 then (minInt, some (Error.atoiRange s))
        else (-(un : Int), none)
      else
        if un ≥ 9223372036854775808 then (maxInt, some (Error.atoiRange s))
        else ((un : Int), none)

/-- Go `strconv.Itoa`: the decimal rendering of an `int`. -/
def Itoa (i : Int) : String :=
  match i with
  | Int.ofNat n => String.mk (Nat.toDigits 10 n)
  | Int.negSucc n => String.mk ('-' :: Nat.toDigits 10 (n + 1))

/-! ## `gitlab/util.go` (not among the embedded sources) -/

/-- Modelled from the spec: `buildTwoPartID` of `gitlab/util.go`, the encoder of
a two-part composite identifier: "`encode` joins parts with `:`". -/
def buildTwoPartID (a b : String) : String :=
  a ++ ":" ++ b

/-- Modelled from the spec: `parseTwoPartID` of `gitlab/util.go`, the decoder of
a two-part composite identifier: "`decode` splits on `:` and fails with
`MalformedIdentifier` if the resulting part count does not match the expected
arity", here exactly 2 parts. -/
def parseTwoPartID (id : String) : Except Error (String × String) :=
  match Split id ':' with
  | [a, b] => Except.ok (a, b)
  | _ => Except.error (Error.unexpectedIDFormat id)

/-- Go map indexing `table[key]`: the zero value `zero` when the key is absent. -/
def mapIndex {α β : Type} [BEq α] (table : List (α × β)) (key : α) (zero : β) : β :=
  match table.lookup key with
  | some v => v
  | none => zero

/-! ## Records of the client library and of the provider state -/

/-- The part of `gitlab.Response` the sources read. -/
structure Response where
  StatusCode : Int
  TotalPages : Int
  CurrentPage : Int
  NextPage : Int
  deriving DecidableEq, Repr

/-- The Go results `(value, response, error)` of a remote call: on success a
value with its response, on failure an error with a response that may be
`nil`. -/
inductive Call (α : Type) where
  | ok (value : α) (resp : Response)
  | fail (resp : Option Response) (err : Error)
  deriving DecidableEq, Repr

/-- Go `http.StatusNotFound`. -/
def StatusNotFound : Int := 404

/-- One element of `deploy_access_levels`, a `map[string]interface{}` whose
keys are those of the element schema; `none` is an absent key. -/
structure DeployAccessLevel where
  access_level : Option String
  access_level_description : Option String
  user_id : Option Int
  group_id : Option Int
  deriving DecidableEq, Repr

/-- The struct `gitlab.EnvironmentAccessOptions`; `none` is a `nil` pointer. -/
structure EnvironmentAccessOptions where
  AccessLevel : Option Int
  UserID : Option Int
  GroupID : Option Int
  deriving DecidableEq, Repr

/-- The struct `gitlab.EnvironmentAccessDescription`. -/
structure EnvironmentAccessDescription where
  AccessLevel : Int
  AccessLevelDescription : String
  UserID : Int
  GroupID : Int
  deriving DecidableEq, Repr

/-- The struct `gitlab.ProtectedEnvironment`. -/
structure ProtectedEnvironment where
  Name : String
  DeployAccessLevels : List EnvironmentAccessDescription
  deriving DecidableEq, Repr

/-- The struct `gitlab.ProtectRepositoryEnvironmentsOptions`. -/
structure ProtectRepositoryEnvironmentsOptions where
  Name : Option String
  DeployAccessLevels : List EnvironmentAccessOptions
  deriving DecidableEq, Repr

/-- The struct `gitlab.BranchAccessDescription`. -/
structure BranchAccessDescription where
  AccessLevel : Int
  AccessLevelDescription : String
  UserID : Int
  GroupID : Int
  deriving DecidableEq, Repr

/-- The struct `gitlab.ProtectedBranch`. -/
structure ProtectedBranch where
  ID : Int
  Name : String
  PushAccessLevels : List BranchAccessDescription
  MergeAccessLevels : List BranchAccessDescription
  UnprotectAccessLevels : List BranchAccessDescription
  CodeOwnerApprovalRequired : Bool
  deriving DecidableEq, Repr

/-- Modelled from the spec: the struct `stateBranchAccessDescription`, declared
in a file that is not among the embedded sources: one local record per remote
descriptor, the role name, and the numeric IDs "omitted entirely when
zero/absent". -/
structure stateBranchAccessDescription where
  AccessLevel : String
  AccessLevelDescription : String
  GroupID : Option Int
  UserID : Option Int
  deriving DecidableEq, Repr

/-- The struct `stateProtectedBranch`. -/
structure stateProtectedBranch where
  ID : Int
  Name : String
  PushAccessLevels : List stateBranchAccessDescription
  MergeAccessLevels : List stateBranchAccessDescription
  UnprotectAccessLevels : List stateBranchAccessDescription
  CodeOwnerApprovalRequired : Bool
  deriving DecidableEq, Repr

/-- The part of `gitlab.Project` the sources read. -/
structure Project where
  ID : Int
  deriving DecidableEq, Repr

/-- The struct `gitlab.PipelineVariable`. -/
structure PipelineVariable where
  Key : String
  Value : String
  deriving DecidableEq, Repr

/-- The part of `gitlab.PipelineSchedule` the sources read. -/
structure PipelineSchedule where
  Variables : List PipelineVariable
  deriving DecidableEq, Repr

/-- The struct `gitlab.CreatePipelineScheduleVariableOptions`. -/
structure CreatePipelineScheduleVariableOptions where
  Key : Option String
  Value : Option String
  deriving DecidableEq, Repr

/-- The part of `gitlab.FreezePeriod` the sources read. -/
structure FreezePeriod where
  ID : Int
  FreezeStart : String
  FreezeEnd : String
  CronTimezone : String
  deriving DecidableEq, Repr

/-- The struct `gitlab.ListFreezePeriodsOptions`. -/
structure ListFreezePeriodsOptions where
  Page : Int
  PerPage : Int
  deriving DecidableEq, Repr

/-- The part of `gitlab.User` the sources read. -/
structure User where
  ID : Int
  Username : String
  Name : String
  IsAdmin : Bool
  CanCreateGroup : Bool
  ProjectsLimit : Int
  deriving DecidableEq, Repr

/-- The fields of `gitlab.ModifyUserOptions` that answer to a field of the user
schema, and `SkipReconfirmation`; `none` is a `nil` pointer, a field left out
of the request. The struct has no counterpart of `confirm`. Its other fields
(`Skype`, `Bio`, ...) are never assigned by the sources. -/
structure ModifyUserOptions where
  Email : Option String
  Password : Option String
  Username : Option String
  Name : Option String
  ProjectsLimit : Option Int
  Admin : Option Bool
  CanCreateGroup : Option Bool
  SkipReconfirmation : Option Bool
  deriving DecidableEq, Repr

/-! ## `schema.ResourceData` -/

/-- The `schema.ValueType`s the sources use. -/
inductive ValueType where
  | TypeBool
  | TypeInt
  | TypeString
  | TypeList
  deriving DecidableEq, Repr

/-- A value held by a `schema.ResourceData`. The element type of a list is the
one fixed by the `Elem` of its schema. -/
inductive Value where
  | bool (b : Bool)
  | int (i : Int)
  | str (s : String)
  | deployAccessLevels (vs : List DeployAccessLevel)
  | protectedBranches (bs : List stateProtectedBranch)
  deriving DecidableEq, Repr

/-- The `schema.ValueType` a value belongs to. -/
def Value.typ : Value → ValueType
  | Value.bool _ => ValueType.TypeBool
  | Value.int _ => ValueType.TypeInt
  | Value.str _ => ValueType.TypeString
  | Value.deployAccessLevels _ => ValueType.TypeList
  | Value.protectedBranches _ => ValueType.TypeList

/-- The fields of `schema.Schema` the sources assign (`Description`,
`ValidateFunc` and `Elem` left aside). -/
structure Schema where
  typ : ValueType
  Required : Bool
  Optional : Bool
  ForceNew : Bool
  Computed : Bool
  Sensitive : Bool
  Default : Option Value
  deriving DecidableEq, Repr

/-- A schema entry with every flag off. -/
def Schema.ofType (t : ValueType) : Schema :=
  { typ := t, Required := false, Optional := false, ForceNew := false, Computed := false,
    Sensitive := false, Default := none }

/-- The record behind `*schema.ResourceData`: the schema of the resource, the
identity, the last-known values (`state`), the declared values merged over
them (`config`, what the SDK reads at the diff level, schema defaults applied)
and the values written by `d.Set` (`written`, newest first). -/
structure ResourceData where
  schema : List (String × Schema)
  Id : String
  state : List (String × Value)
  config : List (String × Value)
  written : List (String × Value)
  deriving DecidableEq, Repr

/-- The zero value the SDK reads for a key that holds nothing; a list that
holds nothing reads as `nil`, here `none`. -/
def zeroValue : ValueType → Option Value
  | ValueType.TypeBool => some (Value.bool false)
  | ValueType.TypeInt => some (Value.int 0)
  | ValueType.TypeString => some (Value.str "")
  | ValueType.TypeList => none

/-- The value of `key` at one level of the data, the zero value of its schema
type when the level holds nothing for it. -/
def readLevel (schema : List (String × Schema)) (level : List (String × Value))
    (key : String) : Option Value :=
  match level.lookup key with
  | some v => some v
  | none =>
    match schema.lookup key with
    | some s => zeroValue s.typ
    | none => none

/-- Go `d.Get(key)`: the value written last by `d.Set`, else the declared one.
A list is given as it is held; `GetDeployAccessLevels` reads its elements the
way the SDK does. -/
def ResourceData.Get (d : ResourceData) (key : String) : Option Value :=
  match d.written.lookup key with
  | some v => some v
  | none => readLevel d.schema d.config key

/-- Go `d.Get(key).(string)`. -/
def ResourceData.GetString (d : ResourceData) (key : String) : String :=
  match d.Get key with
  | some (Value.str s) => s
  | _ => ""

/-- Go `d.Get(key).(int)`. -/
def ResourceData.GetInt (d : ResourceData) (key : String) : Int :=
  match d.Get key with
  | some (Value.int i) => i
  | _ => 0

/-- Go `d.Get(key).(bool)`. -/
def ResourceData.GetBool (d : ResourceData) (key : String) : Bool :=
  match d.Get key with
  | some (Value.bool b) => b
  | _ => false

/-- One element of a list as `d.Get` reads it: a map that holds every key of
the element schema, with the zero value of its type for a key that was not
set. -/
def DeployAccessLevel.withEveryKey (v : DeployAccessLevel) : DeployAccessLevel :=
  { access_level := some (v.access_level.getD "")
    access_level_description := some (v.access_level_description.getD "")
    user_id := some (v.user_id.getD 0)
    group_id := some (v.group_id.getD 0) }

/-- Go `d.Get(key).([]interface{})` for a list of deploy access levels: each
element is read with every key of the element schema. -/
def ResourceData.GetDeployAccessLevels (d : ResourceData) (key : String) :
    List DeployAccessLevel :=
  match d.Get key with
  | some (Value.deployAccessLevels vs) => vs.map DeployAccessLevel.withEveryKey
  | _ => []

/-- Go `d.HasChange(key)`: the last-known value and the declared value differ. -/
def ResourceData.HasChange (d : ResourceData) (key : String) : Bool :=
  readLevel d.schema d.state key != readLevel d.schema d.config key

/-- Go `d.SetId(v)`. -/
def ResourceData.SetId (d : ResourceData) (v : String) : ResourceData :=
  { d with Id := v }

/-- Go `d.Set(key, value)`: an error, and no change, when the key is not in the
schema or the value is not of the type of its schema. -/
def ResourceData.Set (d : ResourceData) (key : String) (value : Value) :
    ResourceData × Option Error :=
  match d.schema.lookup key with
  | none => (d, some (Error.invalidSet key))
  | some s =>
    if value.typ = s.typ then ({ d with written := (key, value) :: d.written }, none)
    else (d, some (Error.invalidSet key))

/-- How a function that may loop or dereference `nil` ends. -/
inductive Outcome where
  /-- It returned this Go `error` (`none` for `nil`). -/
  | returned (err : Option Error)
  /-- It dereferenced a `nil` pointer. -/
  | panicked
  /-- The model ran out of fuel before the function returned. -/
  | outOfFuel
  deriving DecidableEq, Repr

/-- The remote calls of `*gitlab.Client` that the sources make. -/
structure Client where
  GetProject : Option Value → Call Project
  ListProtectedBranches : Option Value → Int → Call (List ProtectedBranch)
  CreatePipelineScheduleVariable :
    String → Int → CreatePipelineScheduleVariableOptions → Call PipelineVariable
  GetPipelineSchedule : String → Int → Call PipelineSchedule
  ProtectRepositoryEnvironments :
    String → ProtectRepositoryEnvironmentsOptions → Call ProtectedEnvironment
  GetProtectedEnvironment : String → String → Call ProtectedEnvironment
  ListFreezePeriods : String → ListFreezePeriodsOptions → Call (List FreezePeriod)
  ModifyUser : Int → ModifyUserOptions → Call User
  GetUser : Int → Call User

/-! ## `gitlab/resource_gitlab_pipeline_schedule_variable.go` -/

/-- The `Schema` of `resourceGitlabPipelineScheduleVariable`. -/
def resourceGitlabPipelineScheduleVariableSchema : List (String × Schema) :=
  [("project",
      { Schema.ofType ValueType.TypeString with Required := true, ForceNew := true }),
   ("pipeline_schedule_id",
      { Schema.ofType ValueType.TypeInt with Required := true, ForceNew := true }),
   ("key",
      { Schema.ofType ValueType.TypeString with Required := true, ForceNew := true }),
   ("value",
      { Schema.ofType ValueType.TypeString with Required := true })]

/-- The `for ... range pipelineSchedule.Variables` loop of
`resourceGitlabPipelineScheduleVariableRead`: at the first variable with the
key, four `d.Set` whose errors are dropped, and `found = true`. -/
def scanPipelineVariables (project : String) (scheduleID : Int) (pipelineVariableKey : String) :
    List PipelineVariable → ResourceData → ResourceData × Bool
  | [], d => (d, false)
  | pipelineVariable :: rest, d =>
    if pipelineVariable.Key = pipelineVariableKey then
      let d1 := (d.Set "project" (Value.str project)).1
      let d2 := (d1.Set "key" (Value.str pipelineVariable.Key)).1
      let d3 := (d2.Set "value" (Value.str pipelineVariable.Value)).1
      let d4 := (d3.Set "pipeline_schedule_id" (Value.int scheduleID)).1
      (d4, true)
    else scanPipelineVariables project scheduleID pipelineVariableKey rest d

/-- Go `resourceGitlabPipelineScheduleVariableRead`. -/
def resourceGitlabPipelineScheduleVariableRead (d : ResourceData) (client : Client) :
    ResourceData × Option Error :=
  let project := d.GetString "project"
  let scheduleID := d.GetInt "pipeline_schedule_id"
  let pipelineVariableKey := d.GetString "key"
  match client.GetPipelineSchedule project scheduleID with
  | Call.fail _ err => (d, some err)
  | Call.ok pipelineSchedule _ =>
    match scanPipelineVariables project scheduleID pipelineVariableKey
        pipelineSchedule.Variables d with
    | (d1, true) => (d1, none)
    | (d1, false) => (d1.SetId "", none)

/-- Go `resourceGitlabPipelineScheduleVariableCreate`. -/
def resourceGitlabPipelineScheduleVariableCreate (d : ResourceData) (client : Client) :
    ResourceData × Option Error :=
  let project := d.GetString "project"
  let scheduleID := d.GetInt "pipeline_schedule_id"
  let options : CreatePipelineScheduleVariableOptions :=
    { Key := some (d.GetString "key"), Value := some (d.GetString "value") }
  match client.CreatePipelineScheduleVariable project scheduleID options with
  | Call.fail _ err => (d, some err)
  | Call.ok scheduleVar _ =>
    let id := Itoa scheduleID
    resourceGitlabPipelineScheduleVariableRead (d.SetId (buildTwoPartID id scheduleVar.Key)) client

/-- Go `resourceGitlabPipelineScheduleVariableImporter`. The Go results are
`([]*schema.ResourceData, error)`; the first component here is `d` as the call
leaves it. -/
def resourceGitlabPipelineScheduleVariableImporter (d : ResourceData) :
    ResourceData × Except Error (List ResourceData) :=
  match Split d.Id ':' with
  | [project, pipelineScheduleId, key] =>
    match Atoi pipelineScheduleId with
    | (_, some err) => (d, Except.error err)
    | (psid, none) =>
      let d1 := d.SetId (buildTwoPartID pipelineScheduleId key)
      match d1.Set "project" (Value.str project) with
      | (d2, some err) => (d2, Except.error err)
      | (d2, none) =>
        match d2.Set "pipeline_schedule_id" (Value.int psid) with
        | (d3, some err) => (d3, Except.error err)
        | (d3, none) =>
          match d3.Set "key" (Value.str key) with
          | (d4, some err) => (d4, Except.error err)
          | (d4, none) => (d4, Except.ok [d4])
  | _ => (d, Except.error Error.invalidImportFormat)

/-! ## `gitlab/data_source_gitlab_project_protected_branches.go` -/

/-- The access-levels schema of a protected branch, a computed list. -/
def dataSourceGitlabProjectProtectedBranchesSchema : List (String × Schema) :=
  [("project_id", { Schema.ofType ValueType.TypeString with Required := true }),
   ("protected_branches", { Schema.ofType ValueType.TypeList with Computed := true })]

/-- How the pagination loop of `dataSourceGitlabProjectProtectedBranchesRead`
ends. -/
inductive LoopEnd where
  /-- The condition `page != totalPages` failed: the loop is left with the list. -/
  | done (allProtectedBranches : List stateProtectedBranch)
  /-- A request failed: `return err`. -/
  | failed (err : Error)
  /-- The condition held with no fuel left for the next request. -/
  | outOfFuel
  deriving DecidableEq, Repr

/-- The state record appended for one listed branch; `convert` stands for
`convertBranchAccessDescriptionsToStateBranchAccessDescriptions`, which is not
among the embedded sources. -/
def toStateProtectedBranch
    (convert : List BranchAccessDescription → List stateBranchAccessDescription)
    (pb : ProtectedBranch) : stateProtectedBranch :=
  { ID := pb.ID
    Name := pb.Name
    PushAccessLevels := convert pb.PushAccessLevels
    MergeAccessLevels := convert pb.MergeAccessLevels
    UnprotectAccessLevels := convert pb.UnprotectAccessLevels
    CodeOwnerApprovalRequired := pb.CodeOwnerApprovalRequired }

/-- The loop `for page := 0; page != totalPages; page++` of
`dataSourceGitlabProjectProtectedBranchesRead`, entered with the current
`page`, `totalPages` and `allProtectedBranches`. Each request takes one unit
of fuel. The first component is the list of the page numbers requested, in
order. -/
def listProtectedBranchesLoop
    (convert : List BranchAccessDescription → List stateBranchAccessDescription)
    (client : Client) (project : Option Value) :
    Nat → Int → Int → List stateProtectedBranch → List Int × LoopEnd
  | fuel, page, totalPages, allProtectedBranches =>
    if page = totalPages then ([], LoopEnd.done allProtectedBranches)
    else
      match fuel with
      | 0 => ([], LoopEnd.outOfFuel)
      | fuel + 1 =>
        match client.ListProtectedBranches project (wrapInt (page + 1)) with
        | Call.fail _ err => ([wrapInt (page + 1)], LoopEnd.failed err)
        | Call.ok pbs resp =>
          let rest := listProtectedBranchesLoop convert client project fuel
            (wrapInt (page + 1)) resp.TotalPages
            (allProtectedBranches ++ pbs.map (toStateProtectedBranch convert))
          (wrapInt (page + 1) :: rest.1, rest.2)

/-- Go `dataSourceGitlabProjectProtectedBranchesRead`. `Hash` stands for
`hashstructure.Hash(project, nil)`. The results are `d` as the call leaves it,
the page numbers requested from `ListProtectedBranches` in order, and how the
call ends. -/
def dataSourceGitlabProjectProtectedBranchesRead
    (convert : List BranchAccessDescription → List stateBranchAccessDescription)
    (Hash : Option Value → Except Error Nat)
    (fuel : Nat) (d : ResourceData) (client : Client) :
    ResourceData × List Int × Outcome :=
  let project := d.Get "project_id"
  match client.GetProject project with
  | Call.fail _ err => (d, [], Outcome.returned (some err))
  | Call.ok projectObject _ =>
    match listProtectedBranchesLoop convert client project fuel 0 (-1) [] with
    | (requests, LoopEnd.failed err) => (d, requests, Outcome.returned (some err))
    | (requests, LoopEnd.outOfFuel) => (d, requests, Outcome.outOfFuel)
    | (requests, LoopEnd.done allProtectedBranches) =>
      match d.Set "protected_branches" (Value.protectedBranches allProtectedBranches) with
      | (d1, some err) => (d1, requests, Outcome.returned (some err))
      | (d1, none) =>
        match Hash project with
        | Except.error err => (d1, requests, Outcome.returned (some err))
        | Except.ok h =>
          (d1.SetId (Itoa projectObject.ID ++ "-" ++ Itoa h), requests, Outcome.returned none)

/-! ## `gitlab/resource_gitlab_project_protected_environment.go` -/

/-- The `Schema` of `resourceGitlabProjectProtectedEnvironment`. -/
def resourceGitlabProjectProtectedEnvironmentSchema : List (String × Schema) :=
  [("project",
      { Schema.ofType ValueType.TypeString with ForceNew := true, Required := true }),
   ("environment",
      { Schema.ofType ValueType.TypeString with ForceNew := true, Required := true }),
   ("deploy_access_levels",
      { Schema.ofType ValueType.TypeList with ForceNew := true, Required := true })]

/-- The `for _, v := range vs` loop of `expandDeployAccessLevels`, entered with
the `result` built so far. `nameToValue` stands for the table
`accessLevelNameToValue`, which is not among the embedded sources. -/
def expandDeployAccessLevelsLoop (nameToValue : List (String × Int)) :
    List DeployAccessLevel → List EnvironmentAccessOptions → List EnvironmentAccessOptions
  | [], result => result
  | opts :: vs, result =>
    let option : EnvironmentAccessOptions :=
      match opts.access_level with
      | some accessLevel =>
        { AccessLevel := some (mapIndex nameToValue accessLevel 0), UserID := none,
          GroupID := none }
      | none =>
        match opts.user_id with
        | some userID => { AccessLevel := none, UserID := some userID, GroupID := none }
        | none =>
          match opts.group_id with
          | some groupID => { AccessLevel := none, UserID := none, GroupID := some groupID }
          | none => { AccessLevel := none, UserID := none, GroupID := none }
    expandDeployAccessLevelsLoop nameToValue vs (result ++ [option])

/-- Go `expandDeployAccessLevels`, with its results `(result, error)`. -/
def expandDeployAccessLevels (nameToValue : List (String × Int)) (vs : List DeployAccessLevel) :
    List EnvironmentAccessOptions × Option Error :=
  (expandDeployAccessLevelsLoop nameToValue vs [], none)

/-- The `for _, accessDescription := range vs` loop of
`flattenDeployAccessLevels`, entered with the `result` built so far.
`valueToName` stands for the table `accessLevelValueToName`, which is not among
the embedded sources. -/
def flattenDeployAccessLevelsLoop (valueToName : List (Int × String)) :
    List EnvironmentAccessDescription → List DeployAccessLevel → List DeployAccessLevel
  | [], result => result
  | accessDescription :: vs, result =>
    let v : DeployAccessLevel :=
      { access_level := some (mapIndex valueToName accessDescription.AccessLevel "")
        access_level_description := some accessDescription.AccessLevelDescription
        user_id := if accessDescription.UserID ≠ 0 then some accessDescription.UserID else none
        group_id :=
          if accessDescription.GroupID ≠ 0 then some accessDescription.GroupID else none }
    flattenDeployAccessLevelsLoop valueToName vs (result ++ [v])

/-- Go `flattenDeployAccessLevels`. -/
def flattenDeployAccessLevels (valueToName : List (Int × String))
    (vs : List EnvironmentAccessDescription) : List DeployAccessLevel :=
  flattenDeployAccessLevelsLoop valueToName vs []

/-- Go `resourceGitlabProjectProtectedEnvironmentRead`. -/
def resourceGitlabProjectProtectedEnvironmentRead (valueToName : List (Int × String))
    (d : ResourceData) (client : Client) : ResourceData × Option Error :=
  match parseTwoPartID d.Id with
  | Except.error err => (d, some err)
  | Except.ok (project, environment) =>
    let d1 := (d.Set "project" (Value.str project)).1
    let d2 := (d1.Set "environment" (Value.str environment)).1
    match client.GetProtectedEnvironment project environment with
    | Call.fail resp err =>
      match resp with
      | some r =>
        if r.StatusCode = StatusNotFound then (d2.SetId "", none)
        else (d2, some (Error.gettingProtectedEnvironment project environment err))
      | none => (d2, some (Error.gettingProtectedEnvironment project environment err))
    | Call.ok protectedEnvironment _ =>
      let d3 := (d2.Set "environment" (Value.str protectedEnvironment.Name)).1
      match d3.Set "deploy_access_levels" (Value.deployAccessLevels
          (flattenDeployAccessLevels valueToName protectedEnvironment.DeployAccessLevels)) with
      | (d4, some err) => (d4, some (Error.settingDeployAccessLevels err))
      | (d4, none) => (d4, none)

/-- Go `resourceGitlabProjectProtectedEnvironmentCreate`. -/
def resourceGitlabProjectProtectedEnvironmentCreate (nameToValue : List (String × Int))
    (valueToName : List (Int × String)) (d : ResourceData) (client : Client) :
    ResourceData × Option Error :=
  match expandDeployAccessLevels nameToValue (d.GetDeployAccessLevels "deploy_access_levels") with
  | (_, some err) => (d, some (Error.expandingDeployAccessLevels err))
  | (deployAccessLevels, none) =>
    let environment := d.GetString "environment"
    let options : ProtectRepositoryEnvironmentsOptions :=
      { Name := some environment, DeployAccessLevels := deployAccessLevels }
    let project := d.GetString "project"
    match client.ProtectRepositoryEnvironments project options with
    | Call.fail resp err =>
      match resp with
      | some r =>
        if r.StatusCode = StatusNotFound then (d, some Error.featureNotAvailable)
        else (d, some err)
      | none => (d, some err)
    | Call.ok protectedEnvironment _ =>
      resourceGitlabProjectProtectedEnvironmentRead valueToName
        (d.SetId (buildTwoPartID project protectedEnvironment.Name)) client

/-! ## `gitlab/resource_gitlab_project_freeze_period.go` -/

/-- The `Schema` of `resourceGitlabProjectFreezePeriod`. -/
def resourceGitlabProjectFreezePeriodSchema : List (String × Schema) :=
  [("project", { Schema.ofType ValueType.TypeString with Required := true }),
   ("freeze_start", { Schema.ofType ValueType.TypeString with Required := true }),
   ("freeze_end", { Schema.ofType ValueType.TypeString with Required := true }),
   ("cron_timezone",
      { Schema.ofType ValueType.TypeString with
        Optional := true, Default := some (Value.str "UTC") })]

/-- The `for _, freezePeriod := range freezePeriods` loop of
`resourceGitlabProjectFreezePeriodRead`: at the first freeze period with the ID,
four `d.Set` whose errors are dropped, and `found = true`. -/
def scanFreezePeriods (freezePeriodID : Int) :
    List FreezePeriod → ResourceData → ResourceData × Bool
  | [], d => (d, false)
  | freezePeriod :: rest, d =>
    if freezePeriod.ID = freezePeriodID then
      let d1 := (d.Set "id" (Value.int freezePeriod.ID)).1
      let d2 := (d1.Set "freeze_start" (Value.str freezePeriod.FreezeStart)).1
      let d3 := (d2.Set "freeze_end" (Value.str freezePeriod.FreezeEnd)).1
      let d4 := (d3.Set "cron_timezone" (Value.str freezePeriod.CronTimezone)).1
      (d4, true)
    else scanFreezePeriods freezePeriodID rest d

/-- How the `for` loop of `resourceGitlabProjectFreezePeriodRead` ends. -/
inductive FreezeLoopEnd where
  /-- A `break` left the loop with this value of `found`. -/
  | left (found : Bool)
  /-- A request failed: `return err`. -/
  | failed (err : Error)
  /-- No fuel was left for the next request. -/
  | outOfFuel
  deriving DecidableEq, Repr

/-- The `for` loop of `resourceGitlabProjectFreezePeriodRead`, entered with the
current `opt`. Each request takes one unit of fuel. -/
def listFreezePeriodsLoop (client : Client) (project : String) (freezePeriodID : Int) :
    Nat → ListFreezePeriodsOptions → ResourceData → ResourceData × FreezeLoopEnd
  | 0, _, d => (d, FreezeLoopEnd.outOfFuel)
  | fuel + 1, opt, d =>
    match client.ListFreezePeriods project opt with
    | Call.fail _ err => (d, FreezeLoopEnd.failed err)
    | Call.ok freezePeriods resp =>
      match scanFreezePeriods freezePeriodID freezePeriods d with
      | (d1, found) =>
        if found ∨ resp.CurrentPage ≥ resp.TotalPages then (d1, FreezeLoopEnd.left found)
        else
          listFreezePeriodsLoop client project freezePeriodID fuel
            { opt with Page := resp.NextPage } d1

/-- Go `resourceGitlabProjectFreezePeriodRead`. -/
def resourceGitlabProjectFreezePeriodRead (fuel : Nat) (d : ResourceData) (client : Client) :
    ResourceData × Outcome :=
  let project := d.GetString "project"
  match Atoi d.Id with
  | (_, some _) => (d, Outcome.returned (some (Error.cannotBeConvertedToInt d.Id)))
  | (freezePeriodID, none) =>
    match listFreezePeriodsLoop client project freezePeriodID fuel
        { Page := 1, PerPage := 20 } d with
    | (d1, FreezeLoopEnd.failed err) => (d1, Outcome.returned (some err))
    | (d1, FreezeLoopEnd.outOfFuel) => (d1, Outcome.outOfFuel)
    | (d1, FreezeLoopEnd.left false) =>
      (d1, Outcome.returned (some (Error.freezePeriodNoLongerExists freezePeriodID)))
    | (d1, FreezeLoopEnd.left true) => (d1, Outcome.returned none)

/-! ## `gitlab/resource_gitlab_user.go` -/

/-- The `Schema` of `resourceGitlabUser`. -/
def resourceGitlabUserSchema : List (String × Schema) :=
  [("username", { Schema.ofType ValueType.TypeString with Required := true }),
   ("password",
      { Schema.ofType ValueType.TypeString with Required := true, Sensitive := true }),
   ("email", { Schema.ofType ValueType.TypeString with Required := true, ForceNew := true }),
   ("name", { Schema.ofType ValueType.TypeString with Required := true }),
   ("is_admin",
      { Schema.ofType ValueType.TypeBool with
        Optional := true, Default := some (Value.bool false) }),
   ("can_create_group",
      { Schema.ofType ValueType.TypeBool with
        Optional := true, Default := some (Value.bool false) }),
   ("confirm",
      { Schema.ofType ValueType.TypeBool with
        Optional := true, Default := some (Value.bool false) }),
   ("projects_limit",
      { Schema.ofType ValueType.TypeInt with Optional := true, Default := some (Value.int 0) })]

/-- Go `resourceGitlabUserSetToState`: four `d.Set` whose errors are dropped. -/
def resourceGitlabUserSetToState (d : ResourceData) (user : User) : ResourceData :=
  let d1 := (d.Set "username" (Value.str user.Username)).1
  let d2 := (d1.Set "name" (Value.str user.Name)).1
  let d3 := (d2.Set "can_create_group" (Value.bool user.CanCreateGroup)).1
  (d3.Set "projects_limit" (Value.int user.ProjectsLimit)).1

/-- Go `resourceGitlabUserRead`. On a failed `GetUser` the source reads
`response.StatusCode` without a `nil` check. -/
def resourceGitlabUserRead (d : ResourceData) (client : Client) : ResourceData × Outcome :=
  let id := (Atoi d.Id).1
  match client.GetUser id with
  | Call.fail response err =>
    match response with
    | none => (d, Outcome.panicked)
    | some r =>
      if r.StatusCode = 404 then (d.SetId "", Outcome.returned none)
      else (d, Outcome.returned (some err))
  | Call.ok user _ => (resourceGitlabUserSetToState d user, Outcome.returned none)

/-- The `options` that `resourceGitlabUserUpdate` builds before the remote
call: `&gitlab.ModifyUserOptions{}` and five `if d.HasChange(...)` in the order
of the source. -/
def resourceGitlabUserUpdateOptions (d : ResourceData) : ModifyUserOptions :=
  let options : ModifyUserOptions :=
    { Email := none, Password := none, Username := none, Name := none, ProjectsLimit := none,
      Admin := none, CanCreateGroup := none, SkipReconfirmation := none }
  let options :=
    if d.HasChange "name" then { options with Name := some (d.GetString "name") } else options
  let options :=
    if d.HasChange "username" then { options with Username := some (d.GetString "username") }
    else options
  let options :=
    if d.HasChange "is_admin" then { options with Admin := some (d.GetBool "is_admin") }
    else options
  let options :=
    if d.HasChange "can_create_group" then
      { options with CanCreateGroup := some (d.GetBool "can_create_group") }
    else options
  let options :=
    if d.HasChange "projects_limit" then
      { options with ProjectsLimit := some (d.GetInt "projects_limit") }
    else options
  options

/-- Go `resourceGitlabUserUpdate`. The results are `d` as the call leaves it,
the arguments of the one `ModifyUser` request it makes, and how the call
ends. -/
def resourceGitlabUserUpdate (d : ResourceData) (client : Client) :
    ResourceData × (Int × ModifyUserOptions) × Outcome :=
  let options := resourceGitlabUserUpdateOptions d
  let id := (Atoi d.Id).1
  match client.ModifyUser id options with
  | Call.fail _ err => (d, (id, options), Outcome.returned (some err))
  | Call.ok _ _ =>
    let r := resourceGitlabUserRead d client
    (r.1, (id, options), r.2)

/-! ## Concrete inputs -/

/-- A resource of the pipeline-schedule-variable kind that holds only an
identity, as the SDK hands it to the importer. -/
def scheduleVariableToImport (id : String) : ResourceData :=
  { schema := resourceGitlabPipelineScheduleVariableSchema, Id := id, state := [], config := [],
    written := [] }


/-- A client every remote call of which fails without a response. -/
def failingClient : Client :=
  { GetProject := fun _ => Call.fail none (Error.remote 0)
    ListProtectedBranches := fun _ _ => Call.fail none (Error.remote 0)
    CreatePipelineScheduleVariable := fun _ _ _ => Call.fail none (Error.remote 0)
    GetPipelineSchedule := fun _ _ => Call.fail none (Error.remote 0)
    ProtectRepositoryEnvironments := fun _ _ => Call.fail none (Error.remote 0)
    GetProtectedEnvironment := fun _ _ => Call.fail none (Error.remote 0)
    ListFreezePeriods := fun _ _ => Call.fail none (Error.remote 0)
    ModifyUser := fun _ _ => Call.fail none (Error.remote 0)
    GetUser := fun _ => Call.fail none (Error.remote 0) }

/-- The response of a successful request for page `page` of `total`. -/
def pageResponse (page total : Int) : Response :=
  { StatusCode := 200, TotalPages := total, CurrentPage := page,
    NextPage := if page < total then page + 1 else 0 }

/-- A protected branch with the given ID and no access levels. -/
def sampleBranch (id : Int) : ProtectedBranch :=
  { ID := id, Name := "release", PushAccessLevels := [], MergeAccessLevels := [],
    UnprotectAccessLevels := [], CodeOwnerApprovalRequired := false }

/-- The two branches listed on page `page`: the IDs `2 * page - 1` and
`2 * page`. -/
def twoBranches (page : Nat) : List ProtectedBranch :=
  [sampleBranch (2 * (page : Int) - 1), sampleBranch (2 * (page : Int))]

/-- A client whose project has three pages of two protected branches each. -/
def threePagesClient : Client :=
  { failingClient with
    GetProject := fun _ => Call.ok { ID := 10 } (pageResponse 1 1)
    ListProtectedBranches := fun _ page =>
      if 1 ≤ page ∧ page ≤ 3 then Call.ok (twoBranches page.toNat) (pageResponse page 3)
      else Call.fail none (Error.remote 0) }

/-- The client `threePagesClient` with a request for page 2 that fails. -/
def pageTwoFailsClient : Client :=
  { threePagesClient with
    ListProtectedBranches := fun project page =>
      if page = 2 then Call.fail (some (pageResponse 0 0)) (Error.remote 500)
      else threePagesClient.ListProtectedBranches project page }

/-- A client whose listing of protected branches always succeeds with no item
and a total of 0 pages. -/
def zeroPagesClient : Client :=
  { failingClient with
    GetProject := fun _ => Call.ok { ID := 10 } (pageResponse 1 1)
    ListProtectedBranches := fun _ _ => Call.ok [] (pageResponse 1 0) }

/-- A conversion of branch access descriptions that keeps the role name out. -/
def sampleConvert (vs : List BranchAccessDescription) : List stateBranchAccessDescription :=
  vs.map (fun (v : BranchAccessDescription) =>
    ({ AccessLevel := "", AccessLevelDescription := v.AccessLevelDescription,
       GroupID := if v.GroupID = (0 : Int) then none else some v.GroupID,
       UserID := if v.UserID = (0 : Int) then none else some v.UserID } :
      stateBranchAccessDescription))

/-- A hash of the parameters that always succeeds. -/
def sampleHash (_ : Option Value) : Except Error Nat :=
  Except.ok 7

/-- The data of the protected-branches data source for project `10`, before
its first read. -/
def protectedBranchesData : ResourceData :=
  { schema := dataSourceGitlabProjectProtectedBranchesSchema, Id := "", state := [],
    config := [("project_id", Value.str "10")], written := [] }

/-- The IDs of the protected branches that `d` holds for `key`, in order. -/
def ResourceData.GetProtectedBranchIDs (d : ResourceData) (key : String) : List Int :=
  match d.Get key with
  | some (Value.protectedBranches bs) => bs.map (fun b => b.ID)
  | _ => []

/-- A table of role names, as `accessLevelNameToValue` may read. -/
def sampleNameToValue : List (String × Int) :=
  [("developer", 30), ("maintainer", 40)]

/-- A table of role values, as `accessLevelValueToName` may read. -/
def sampleValueToName : List (Int × String) :=
  [(30, "developer"), (40, "maintainer")]

/-- The declared data of a protected environment that has no identity yet. -/
def protectedEnvironmentData (project environment : String)
    (levels : List DeployAccessLevel) : ResourceData :=
  { schema := resourceGitlabProjectProtectedEnvironmentSchema, Id := "", state := [],
    config := [("project", Value.str project), ("environment", Value.str environment),
      ("deploy_access_levels", Value.deployAccessLevels levels)],
    written := [] }

/-- The last-known data of a protected environment with the given identity. -/
def storedEnvironmentData (id : String) : ResourceData :=
  { schema := resourceGitlabProjectProtectedEnvironmentSchema, Id := id, state := [],
    config := [], written := [] }

/-- One deploy access level given by the role name `maintainer`. -/
def maintainerLevel : DeployAccessLevel :=
  { access_level := some "maintainer", access_level_description := none, user_id := none,
    group_id := none }

/-- The remote description of a deploy access level of the role `maintainer`. -/
def maintainerDescription : EnvironmentAccessDescription :=
  { AccessLevel := 40, AccessLevelDescription := "Maintainers", UserID := 0, GroupID := 0 }

/-- A client that protects the environment it is asked to and then finds it,
with one deploy access level of the role `maintainer`. -/
def environmentClient : Client :=
  { failingClient with
    ProtectRepositoryEnvironments := fun _ options =>
      Call.ok { Name := options.Name.getD "", DeployAccessLevels := [maintainerDescription] }
        (pageResponse 1 1)
    GetProtectedEnvironment := fun _ environment =>
      Call.ok { Name := environment, DeployAccessLevels := [maintainerDescription] }
        (pageResponse 1 1) }

/-- A client whose `GetProtectedEnvironment` fails with the given status. -/
def environmentGetFails (status : Int) : Client :=
  { failingClient with
    GetProtectedEnvironment := fun _ _ =>
      Call.fail (some { StatusCode := status, TotalPages := 0, CurrentPage := 0, NextPage := 0 })
        (Error.remote status.toNat) }

/-- The last-known data of a freeze period of project `10` with the given
identity. -/
def freezePeriodData (id : String) : ResourceData :=
  { schema := resourceGitlabProjectFreezePeriodSchema, Id := id,
    state := [("project", Value.str "10")], config := [("project", Value.str "10")],
    written := [] }

/-- A freeze period with the given ID. -/
def sampleFreezePeriod (id : Int) : FreezePeriod :=
  { ID := id, FreezeStart := "0 23 * * 5", FreezeEnd := "0 7 * * 1", CronTimezone := "UTC" }

/-- A client whose project has two pages of freeze periods, with the IDs 1 and
2 on the first page and 3 on the second. -/
def twoFreezePagesClient : Client :=
  { failingClient with
    ListFreezePeriods := fun _ opt =>
      if opt.Page = 1 then Call.ok [sampleFreezePeriod 1, sampleFreezePeriod 2] (pageResponse 1 2)
      else if opt.Page = 2 then Call.ok [sampleFreezePeriod 3] (pageResponse 2 2)
      else Call.fail none (Error.remote 0) }

/-- The keys of a schema that are not marked `ForceNew`: the fields an update
may change in place. -/
def mutableKeys (schema : List (String × Schema)) : List String :=
  (schema.filter (fun entry => !entry.2.ForceNew)).map (fun entry => entry.1)

/-- The field of a `ModifyUser` payload that carries the schema field `key`, as
`resourceGitlabUserCreate` pairs them in `CreateUserOptions`; `none` when the
field is not populated. `confirm` has no field in `ModifyUserOptions`. -/
def ModifyUserOptions.field (options : ModifyUserOptions) (key : String) : Option Value :=
  if key = "email" then options.Email.map Value.str
  else if key = "password" then options.Password.map Value.str
  else if key = "username" then options.Username.map Value.str
  else if key = "name" then options.Name.map Value.str
  else if key = "projects_limit" then options.ProjectsLimit.map Value.int
  else if key = "is_admin" then options.Admin.map Value.bool
  else if key = "can_create_group" then options.CanCreateGroup.map Value.bool
  else none

/-- The last-known values of a user. -/
def sampleUserState : List (String × Value) :=
  [("username", Value.str "jdoe"), ("password", Value.str "old-secret"),
   ("email", Value.str "jdoe@example.com"), ("name", Value.str "J. Doe"),
   ("is_admin", Value.bool false), ("can_create_group", Value.bool false),
   ("confirm", Value.bool false), ("projects_limit", Value.int 0)]

/-- The data of user `12` whose declared `password` and `confirm` differ from
the last-known values, every other field being as it was. -/
def passwordAndConfirmChanged : ResourceData :=
  { schema := resourceGitlabUserSchema, Id := "12", state := sampleUserState,
    config := [("password", Value.str "new-secret"), ("confirm", Value.bool true)] ++
      sampleUserState,
    written := [] }

/-- The data of user `12` whose declared `name` and `projects_limit` differ
from the last-known values, every other field being as it was. -/
def nameAndLimitChanged : ResourceData :=
  { schema := resourceGitlabUserSchema, Id := "12", state := sampleUserState,
    config := [("name", Value.str "Jane Doe"), ("projects_limit", Value.int 5)] ++
      sampleUserState,
    written := [] }

/-- A list with one role-based record, one user-based record, one group-based
record, one record with all three fields and one with none. -/
def sampleLevels : List DeployAccessLevel :=
  [maintainerLevel,
   { access_level := none, access_level_description := none, user_id := some 7,
     group_id := none },
   { access_level := none, access_level_description := none, user_id := none,
     group_id := some 9 },
   { access_level := some "developer", access_level_description := none, user_id := some 7,
     group_id := some 9 },
   { access_level := none, access_level_description := none, user_id := none,
     group_id := none }]

/-- The remote description that carries exactly the fields of an emitted
option, as the round trip of the spec reads them back: an ID that is not
populated reads as 0, an access level that is not populated as the zero level;
`describe` stands for the description text the remote system adds. -/
def describeOptions (describe : EnvironmentAccessOptions → String)
    (option : EnvironmentAccessOptions) : EnvironmentAccessDescription :=
  { AccessLevel := option.AccessLevel.getD 0
    AccessLevelDescription := describe option
    UserID := option.UserID.getD 0
    GroupID := option.GroupID.getD 0 }

/-- The table `sampleValueToName` with a name for the zero level as well. -/
def valueToNameWithNoOne : List (Int × String) :=
  (0, "no one") :: sampleValueToName

/-- One role-based, one user-based and one group-based record, as a
configuration declares them. -/
def sampleThreeModes : List DeployAccessLevel :=
  [maintainerLevel,
   { access_level := none, access_level_description := none, user_id := some 7,
     group_id := none },
   { access_level := none, access_level_description := none, user_id := none,
     group_id := some 9 }]

/-- The description text of the sample remote system: none. -/
def sampleDescribe (_ : EnvironmentAccessOptions) : String :=
  ""

/-- The client `environmentClient` with a `ProtectRepositoryEnvironments` that
fails: with a response of the given status, or without a response for `none`. -/
def environmentCreateFails (status : Option Int) : Client :=
  { environmentClient with
    ProtectRepositoryEnvironments := fun _ _ =>
      match status with
      | some code =>
        Call.fail (some { StatusCode := code, TotalPages := 0, CurrentPage := 0, NextPage := 0 })
          (Error.remote code.toNat)
      | none => Call.fail none (Error.remote 0) }

/-- A client that creates the pipeline schedule variable it is asked to and
whose schedules hold the variable `MY_VAR`. -/
def scheduleVariableClient : Client :=
  { failingClient with
    CreatePipelineScheduleVariable := fun _ _ options =>
      Call.ok { Key := options.Key.getD "", Value := options.Value.getD "" } (pageResponse 1 1)
    GetPipelineSchedule := fun _ _ =>
      Call.ok { Variables := [{ Key := "MY_VAR", Value := "secret" }] } (pageResponse 1 1) }
/-! ## Theorems -/

theorem Set_Id (d : ResourceData) (key : String) (value : Value) :
    (d.Set key value).1.Id = d.Id := by
  unfold ResourceData.Set
  split
  · rfl
  · split <;> rfl

theorem Set_schema (d : ResourceData) (key : String) (value : Value) :
    (d.Set key value).1.schema = d.schema := by
  unfold ResourceData.Set
  split
  · rfl
  · split <;> rfl

/-- C1: for every import identifier that splits on `:` into exactly three
parts `p`, `s`, `k` where `Atoi s` succeeds with `n`, the importer of a
pipeline schedule variable succeeds, returns exactly the one resource it was
given, and leaves it with `project = p`, `pipeline_schedule_id = n` and
`key = k`. -/
theorem scheduleVariableImporter_sets_fields (d : ResourceData) (p s k : String) (n : Int)
    (hschema : d.schema = resourceGitlabPipelineScheduleVariableSchema)
    (hsplit : Split d.Id ':' = [p, s, k])
    (hatoi : Atoi s = (n, none)) :
    ∃ d1 : ResourceData,
      resourceGitlabPipelineScheduleVariableImporter d = (d1, Except.ok [d1]) ∧
      d1.schema = d.schema ∧ d1.state = d.state ∧ d1.config = d.config ∧
      d1.Get "project" = some (Value.str p) ∧
      d1.Get "pipeline_schedule_id" = some (Value.int n) ∧
      d1.Get "key" = some (Value.str k) := by
  simp [resourceGitlabPipelineScheduleVariableImporter, hsplit, hatoi, ResourceData.Set,
    ResourceData.SetId, ResourceData.Get, hschema, resourceGitlabPipelineScheduleVariableSchema,
    List.lookup, Schema.ofType, Value.typ]

/-- Witness of C1: importing `10:55:MY_VAR` gives project `10`, schedule 55
and key `MY_VAR`. -/
theorem scheduleVariableImporter_sets_fields_witness :
    ∃ d1 : ResourceData,
      resourceGitlabPipelineScheduleVariableImporter (scheduleVariableToImport "10:55:MY_VAR")
        = (d1, Except.ok [d1]) ∧
      d1.schema = (scheduleVariableToImport "10:55:MY_VAR").schema ∧
      d1.state = (scheduleVariableToImport "10:55:MY_VAR").state ∧
      d1.config = (scheduleVariableToImport "10:55:MY_VAR").config ∧
      d1.Get "project" = some (Value.str "10") ∧
      d1.Get "pipeline_schedule_id" = some (Value.int 55) ∧
      d1.Get "key" = some (Value.str "MY_VAR") :=
  scheduleVariableImporter_sets_fields (scheduleVariableToImport "10:55:MY_VAR") "10" "55" "MY_VAR"
    55 rfl (by decide) (by decide)


/-- C2: the importer of a pipeline schedule variable fails if and only if the identifier
to import does not split on `:` into exactly three parts or its middle part
does not parse as an integer; whenever it fails it returns no resource
and leaves the resource as it was (identity, project, pipeline_schedule_id and
key included). -/
theorem scheduleVariableImporter_fails_iff (d : ResourceData)
    (hschema : d.schema = resourceGitlabPipelineScheduleVariableSchema) :
    ((∃ err, (resourceGitlabPipelineScheduleVariableImporter d).2 = Except.error err) ↔
      ((Split d.Id ':').length ≠ 3 ∨
        ∃ p s k err, Split d.Id ':' = [p, s, k] ∧ (Atoi s).2 = some err)) ∧
    (∀ err, (resourceGitlabPipelineScheduleVariableImporter d).2 = Except.error err →
      resourceGitlabPipelineScheduleVariableImporter d = (d, Except.error err)) := by
  unfold resourceGitlabPipelineScheduleVariableImporter
  split
  · rename_i p s k hsplit
    rcases hatoi : Atoi s with ⟨n, _ | e⟩
    · simp [hsplit, hatoi, ResourceData.Set, ResourceData.SetId, hschema,
        resourceGitlabPipelineScheduleVariableSchema, List.lookup, Schema.ofType, Value.typ]
    · simp only [hsplit, hatoi]
      refine ⟨⟨fun _ => Or.inr ⟨p, s, k, e, rfl, by rw [hatoi]⟩, fun _ => ⟨e, rfl⟩⟩, ?_⟩
      intro err h
      simp at h
      simp [h]
  · rename_i hne
    refine ⟨⟨fun _ => Or.inl ?_, fun _ => ⟨_, rfl⟩⟩, ?_⟩
    · intro hlen
      match hs : Split d.Id ':', hlen with
      | [a, b, c], _ => exact hne a b c hs
    · intro err h
      simp at h
      simp [h]

/-- Witness of C2: `10:abc:MY_VAR` fails on its middle part and `10:55:A:B` on
its arity, both leaving the resource as it was. -/
theorem scheduleVariableImporter_fails_iff_witness :
    (((∃ err, (resourceGitlabPipelineScheduleVariableImporter
          (scheduleVariableToImport "10:abc:MY_VAR")).2 = Except.error err) ↔
        ((Split (scheduleVariableToImport "10:abc:MY_VAR").Id ':').length ≠ 3 ∨
          ∃ p s k err, Split (scheduleVariableToImport "10:abc:MY_VAR").Id ':' = [p, s, k] ∧
            (Atoi s).2 = some err)) ∧
      (∀ err, (resourceGitlabPipelineScheduleVariableImporter
          (scheduleVariableToImport "10:abc:MY_VAR")).2 = Except.error err →
        resourceGitlabPipelineScheduleVariableImporter (scheduleVariableToImport "10:abc:MY_VAR")
          = (scheduleVariableToImport "10:abc:MY_VAR", Except.error err))) ∧
    resourceGitlabPipelineScheduleVariableImporter (scheduleVariableToImport "10:abc:MY_VAR")
      = (scheduleVariableToImport "10:abc:MY_VAR", Except.error (Error.atoiSyntax "abc")) ∧
    resourceGitlabPipelineScheduleVariableImporter (scheduleVariableToImport "10:55:A:B")
      = (scheduleVariableToImport "10:55:A:B", Except.error Error.invalidImportFormat) :=
  ⟨scheduleVariableImporter_fails_iff (scheduleVariableToImport "10:abc:MY_VAR") rfl, by decide, by decide⟩

theorem wrapInt_of_range (i : Int) (h0 : 0 ≤ i) (h1 : i < 9223372036854775808) :
    wrapInt i = i := by
  unfold wrapInt
  omega

/-- The pagination loop, entered at page `j` with `m` pages left, all of which
answer with their items and the total `j + m`. -/
theorem listProtectedBranchesLoop_pages
    (convert : List BranchAccessDescription → List stateBranchAccessDescription)
    (client : Client) (project : Option Value) (n : Nat) (pages : Nat → List ProtectedBranch)
    (hn : (n : Int) < 9223372036854775808)
    (hpages : ∀ k : Nat, 1 ≤ k → k ≤ n → ∃ resp,
      client.ListProtectedBranches project (k : Int) = Call.ok (pages k) resp ∧
        resp.TotalPages = (n : Int)) :
    ∀ (m j fuel : Nat) (tp : Int) (acc : List stateProtectedBranch),
      j + m = n → m ≤ fuel → (tp = (n : Int) ∨ (0 < m ∧ tp ≠ (j : Int))) →
      listProtectedBranchesLoop convert client project fuel (j : Int) tp acc =
        ((List.range m).map (fun i => ((j + i + 1 : Nat) : Int)),
          LoopEnd.done (acc ++ (List.range m).flatMap
            (fun i => (pages (j + i + 1)).map (toStateProtectedBranch convert)))) := by
  intro m
  induction m with
  | zero =>
    intro j fuel tp acc hj _ htp
    have htp2 : (j : Int) = tp := by
      rcases htp with h | h
      · rw [h]; exact_mod_cast (by omega : j = n)
      · omega
    unfold listProtectedBranchesLoop
    simp [htp2]
  | succ m ih =>
    intro j fuel tp acc hj hfuel htp
    have hne : ¬ ((j : Int) = tp) := by
      rcases htp with h | h
      · rw [h]; intro h2; have : j = n := by exact_mod_cast h2
        omega
      · exact fun h2 => h.2 h2.symm
    obtain ⟨fuel1, rfl⟩ : ∃ f, fuel = f + 1 := ⟨fuel - 1, by omega⟩
    have hw : wrapInt ((j : Int) + 1) = ((j + 1 : Nat) : Int) := by
      rw [wrapInt_of_range] <;> push_cast <;> omega
    obtain ⟨resp, hcall, htotal⟩ := hpages (j + 1) (by omega) (by omega)
    unfold listProtectedBranchesLoop
    rw [if_neg hne]
    simp only [hw, hcall, htotal]
    rw [ih (j + 1) fuel1 (n : Int) _ (by omega) (by omega) (Or.inl rfl)]
    simp only [List.range_succ_eq_map, List.map_cons, List.map_map, List.flatMap_cons,
      List.flatMap_map, List.append_assoc]
    have hidx : ∀ i : Nat, j + 1 + i + 1 = j + (i + 1) + 1 := fun i => by omega
    refine Prod.ext ?_ ?_
    · simp only [Nat.add_zero, List.cons.injEq, true_and]
      apply List.map_congr_left
      intro i _
      simp only [Function.comp, Nat.succ_eq_add_one, hidx]
    · simp only [Nat.add_zero, LoopEnd.done.injEq, List.append_cancel_left_eq,
        Nat.succ_eq_add_one, hidx]

/-- The pagination loop, entered at page `j` when the request `m + 1` pages
later fails and none of the `m` answers before it ends the loop. -/
theorem listProtectedBranchesLoop_failure
    (convert : List BranchAccessDescription → List stateBranchAccessDescription)
    (client : Client) (project : Option Value) (k : Nat) (resp : Option Response) (err : Error)
    (hk : (k : Int) < 9223372036854775808)
    (hfail : client.ListProtectedBranches project (k : Int) = Call.fail resp err)
    (hbefore : ∀ j : Nat, 1 ≤ j → j < k → ∃ items r,
      client.ListProtectedBranches project (j : Int) = Call.ok items r ∧
        r.TotalPages ≠ (j : Int)) :
    ∀ (m j fuel : Nat) (tp : Int) (acc : List stateProtectedBranch),
      j + m + 1 = k → m + 1 ≤ fuel → tp ≠ (j : Int) →
      listProtectedBranchesLoop convert client project fuel (j : Int) tp acc =
        ((List.range (m + 1)).map (fun i => ((j + i + 1 : Nat) : Int)), LoopEnd.failed err) := by
  intro m
  induction m with
  | zero =>
    intro j fuel tp acc hj hfuel htp
    obtain ⟨fuel1, rfl⟩ : ∃ f, fuel = f + 1 := ⟨fuel - 1, by omega⟩
    have hw : wrapInt ((j : Int) + 1) = (k : Int) := by
      rw [wrapInt_of_range] <;> omega
    unfold listProtectedBranchesLoop
    rw [if_neg (fun h => htp h.symm)]
    simp only [hw, hfail]
    have : (k : Int) = (j : Int) + 1 := by omega
    simp [List.range_succ_eq_map, this]
  | succ m ih =>
    intro j fuel tp acc hj hfuel htp
    obtain ⟨fuel1, rfl⟩ : ∃ f, fuel = f + 1 := ⟨fuel - 1, by omega⟩
    have hw : wrapInt ((j : Int) + 1) = ((j + 1 : Nat) : Int) := by
      rw [wrapInt_of_range] <;> push_cast <;> omega
    obtain ⟨items, r, hcall, htotal⟩ := hbefore (j + 1) (by omega) (by omega)
    unfold listProtectedBranchesLoop
    rw [if_neg (fun h => htp h.symm)]
    simp only [hw, hcall]
    rw [ih (j + 1) fuel1 r.TotalPages _ (by omega) (by omega) htotal]
    have hidx : ∀ i : Nat, j + 1 + i + 1 = j + (i + 1) + 1 := fun i => by omega
    rw [List.range_succ_eq_map (m + 1)]
    simp only [List.map_cons, List.map_map, Nat.add_zero, Prod.mk.injEq, List.cons.injEq,
      true_and, and_true]
    apply List.map_congr_left
    intro i _
    simp only [Function.comp, Nat.succ_eq_add_one, hidx]

/-- C3: when the project lookup succeeds and the listing endpoint has
`n >= 1` pages, every one answering with its items and the total `n`, the read
of the protected-branches data source (with fuel for `n` requests) requests the
pages `1, 2, ..., n` once each in that order, returns, and stores as
`protected_branches` the concatenation, in page order and within-page order, of
one state record per listed branch. -/
theorem protectedBranchesRead_collects_all_pages
    (convert : List BranchAccessDescription → List stateBranchAccessDescription)
    (Hash : Option Value → Except Error Nat) (fuel : Nat) (d : ResourceData) (client : Client)
    (n : Nat) (pages : Nat → List ProtectedBranch) (projectObject : Project) (r0 : Response)
    (hschema : d.schema = dataSourceGitlabProjectProtectedBranchesSchema)
    (hproject : client.GetProject (d.Get "project_id") = Call.ok projectObject r0)
    (hn1 : 1 ≤ n) (hn : (n : Int) < 9223372036854775808)
    (hpages : ∀ k : Nat, 1 ≤ k → k ≤ n → ∃ resp,
      client.ListProtectedBranches (d.Get "project_id") (k : Int) = Call.ok (pages k) resp ∧
        resp.TotalPages = (n : Int))
    (hfuel : n ≤ fuel) :
    (dataSourceGitlabProjectProtectedBranchesRead convert Hash fuel d client).2.1 =
        (List.range n).map (fun i => ((i + 1 : Nat) : Int)) ∧
      (∃ err, (dataSourceGitlabProjectProtectedBranchesRead convert Hash fuel d client).2.2 =
        Outcome.returned err) ∧
      (dataSourceGitlabProjectProtectedBranchesRead convert Hash fuel d client).1.Get
          "protected_branches" =
        some (Value.protectedBranches ((List.range n).flatMap
          (fun i => (pages (i + 1)).map (toStateProtectedBranch convert)))) := by
  have hloop := listProtectedBranchesLoop_pages convert client (d.Get "project_id") n pages hn
    hpages n 0 fuel (-1) [] (by omega) hfuel (Or.inr ⟨by omega, by decide⟩)
  simp only [Nat.cast_zero, Nat.zero_add, List.nil_append] at hloop
  unfold dataSourceGitlabProjectProtectedBranchesRead
  simp only [hproject, hloop]
  cases hh : Hash (d.Get "project_id") <;>
    simp [ResourceData.Set, ResourceData.SetId, ResourceData.Get, hschema,
      dataSourceGitlabProjectProtectedBranchesSchema, List.lookup, Schema.ofType, Value.typ]

/-- C5: when the project lookup succeeds, the requests for the pages
`1, ..., k - 1` succeed without ending the loop and the request for page `k`
fails, the read of the protected-branches data source (with fuel for `k`
requests) returns exactly that failure, has requested the pages `1, ..., k`
and no other, and leaves the data (`protected_branches` and the identity
included) as it was. -/
theorem protectedBranchesRead_page_failure
    (convert : List BranchAccessDescription → List stateBranchAccessDescription)
    (Hash : Option Value → Except Error Nat) (fuel : Nat) (d : ResourceData) (client : Client)
    (k : Nat) (projectObject : Project) (r0 : Response) (resp : Option Response) (err : Error)
    (hproject : client.GetProject (d.Get "project_id") = Call.ok projectObject r0)
    (hk1 : 1 ≤ k) (hk : (k : Int) < 9223372036854775808)
    (hbefore : ∀ j : Nat, 1 ≤ j → j < k → ∃ items r,
      client.ListProtectedBranches (d.Get "project_id") (j : Int) = Call.ok items r ∧
        r.TotalPages ≠ (j : Int))
    (hfail : client.ListProtectedBranches (d.Get "project_id") (k : Int) = Call.fail resp err)
    (hfuel : k ≤ fuel) :
    dataSourceGitlabProjectProtectedBranchesRead convert Hash fuel d client =
      (d, (List.range k).map (fun i => ((i + 1 : Nat) : Int)), Outcome.returned (some err)) := by
  obtain ⟨m, rfl⟩ : ∃ m, k = m + 1 := ⟨k - 1, by omega⟩
  have hloop := listProtectedBranchesLoop_failure convert client (d.Get "project_id") (m + 1)
    resp err hk hfail hbefore m 0 fuel (-1) [] (by omega) hfuel (by decide)
  simp only [Nat.zero_add, Nat.cast_zero] at hloop
  unfold dataSourceGitlabProjectProtectedBranchesRead
  simp only [hproject, hloop]

/-- Witness of C3: three pages of two branches each give the six branches in
page order, after the requests 1, 2, 3. -/
theorem protectedBranchesRead_collects_all_pages_witness :
    ((dataSourceGitlabProjectProtectedBranchesRead sampleConvert sampleHash 3
          protectedBranchesData threePagesClient).2.1 =
        (List.range 3).map (fun i => ((i + 1 : Nat) : Int)) ∧
      (∃ err, (dataSourceGitlabProjectProtectedBranchesRead sampleConvert sampleHash 3
          protectedBranchesData threePagesClient).2.2 = Outcome.returned err) ∧
      (dataSourceGitlabProjectProtectedBranchesRead sampleConvert sampleHash 3
          protectedBranchesData threePagesClient).1.Get "protected_branches" =
        some (Value.protectedBranches ((List.range 3).flatMap
          (fun i => (twoBranches (i + 1)).map (toStateProtectedBranch sampleConvert))))) ∧
    (dataSourceGitlabProjectProtectedBranchesRead sampleConvert sampleHash 3
        protectedBranchesData threePagesClient).2.1 = [1, 2, 3] ∧
    ((dataSourceGitlabProjectProtectedBranchesRead sampleConvert sampleHash 3
        protectedBranchesData threePagesClient).1.GetProtectedBranchIDs "protected_branches")
      = [1, 2, 3, 4, 5, 6] :=
  ⟨protectedBranchesRead_collects_all_pages sampleConvert sampleHash 3 protectedBranchesData
      threePagesClient 3 twoBranches { ID := 10 } (pageResponse 1 1) rfl rfl (by decide)
      (by decide)
      (fun k h1 h3 => by
        interval_cases k
        · exact ⟨pageResponse 1 3, rfl, rfl⟩
        · exact ⟨pageResponse 2 3, rfl, rfl⟩
        · exact ⟨pageResponse 3 3, rfl, rfl⟩)
      (by decide),
    by decide, by decide⟩

/-- Witness of C5: with three pages of which the second fails, the read
returns that failure after the requests 1 and 2, and the data is as it was. -/
theorem protectedBranchesRead_page_failure_witness :
    dataSourceGitlabProjectProtectedBranchesRead sampleConvert sampleHash 3
        protectedBranchesData pageTwoFailsClient =
      (protectedBranchesData, (List.range 2).map (fun i => ((i + 1 : Nat) : Int)),
        Outcome.returned (some (Error.remote 500))) ∧
    (List.range 2).map (fun i => ((i + 1 : Nat) : Int)) = [1, 2] ∧
    protectedBranchesData.Get "protected_branches" = none ∧
    protectedBranchesData.Id = "" :=
  ⟨protectedBranchesRead_page_failure sampleConvert sampleHash 3 protectedBranchesData
      pageTwoFailsClient 2 { ID := 10 } (pageResponse 1 1) (some (pageResponse 0 0))
      (Error.remote 500) rfl (by decide) (by decide)
      (fun j h1 h2 => by
        interval_cases j
        exact ⟨twoBranches 1, pageResponse 1 3, rfl, by decide⟩)
      rfl (by decide),
    by decide, by decide, by decide⟩

/-- The pagination loop against an endpoint that always answers with a total
of 0 pages: entered at a page `j >= 1`, it has not ended after `fuel` further
requests, as long as the page counter stays below `2 ^ 63`. -/
theorem listProtectedBranchesLoop_zero_total
    (convert : List BranchAccessDescription → List stateBranchAccessDescription)
    (client : Client) (project : Option Value)
    (hzero : ∀ page, ∃ items resp,
      client.ListProtectedBranches project page = Call.ok items resp ∧ resp.TotalPages = 0) :
    ∀ (fuel j : Nat) (acc : List stateProtectedBranch),
      1 ≤ j → ((j + fuel : Nat) : Int) < 9223372036854775808 →
      listProtectedBranchesLoop convert client project fuel (j : Int) 0 acc =
        ((List.range fuel).map (fun i => ((j + i + 1 : Nat) : Int)), LoopEnd.outOfFuel) := by
  intro fuel
  induction fuel with
  | zero =>
    intro j acc hj _
    unfold listProtectedBranchesLoop
    rw [if_neg (by omega)]
    rfl
  | succ fuel ih =>
    intro j acc hj hlt
    have hw : wrapInt ((j : Int) + 1) = ((j + 1 : Nat) : Int) := by
      rw [wrapInt_of_range] <;> push_cast <;> omega
    obtain ⟨items, resp, hcall, htotal⟩ := hzero ((j + 1 : Nat) : Int)
    unfold listProtectedBranchesLoop
    rw [if_neg (by omega)]
    simp only [hw, hcall, htotal]
    rw [ih (j + 1) _ (by omega) (by push_cast at hlt ⊢; omega)]
    have hidx : ∀ i : Nat, j + 1 + i + 1 = j + (i + 1) + 1 := fun i => by omega
    rw [List.range_succ_eq_map fuel]
    simp only [List.map_cons, List.map_map, Nat.add_zero, Prod.mk.injEq, List.cons.injEq,
      true_and, and_true]
    apply List.map_congr_left
    intro i _
    simp only [Function.comp, Nat.succ_eq_add_one, hidx]

/-- C4, evaluated at an endpoint that reports a total of 0 pages: the read of
the protected-branches data source has not returned after five requests, for
the pages 1 to 5, where the claim allows `max(0, 1) = 1` request. -/
theorem protectedBranchesRead_zero_total_pages_runs_on :
    dataSourceGitlabProjectProtectedBranchesRead sampleConvert sampleHash 5
        protectedBranchesData zeroPagesClient =
      (protectedBranchesData, [1, 2, 3, 4, 5], Outcome.outOfFuel) := by
  decide

/-- The read of the protected-branches data source against an endpoint that
always answers with a total of 0 pages does not return within any number of
requests below `2 ^ 63`. -/
theorem protectedBranchesRead_zero_total_never_returns
    (convert : List BranchAccessDescription → List stateBranchAccessDescription)
    (Hash : Option Value → Except Error Nat) (fuel : Nat) (d : ResourceData) (client : Client)
    (projectObject : Project) (r0 : Response)
    (hproject : client.GetProject (d.Get "project_id") = Call.ok projectObject r0)
    (hzero : ∀ page, ∃ items resp,
      client.ListProtectedBranches (d.Get "project_id") page = Call.ok items resp ∧
        resp.TotalPages = 0)
    (hfuel : (fuel : Int) < 9223372036854775808) :
    dataSourceGitlabProjectProtectedBranchesRead convert Hash fuel d client =
      (d, (List.range fuel).map (fun i => ((i + 1 : Nat) : Int)), Outcome.outOfFuel) := by
  unfold dataSourceGitlabProjectProtectedBranchesRead
  simp only [hproject]
  cases fuel with
  | zero =>
    unfold listProtectedBranchesLoop
    simp
  | succ fuel =>
    obtain ⟨items, resp, hcall, htotal⟩ := hzero 1
    have hw : wrapInt ((0 : Int) + 1) = 1 := by decide
    unfold listProtectedBranchesLoop
    rw [if_neg (by decide)]
    simp only [hw, hcall, htotal]
    have h := listProtectedBranchesLoop_zero_total convert client (d.Get "project_id") hzero
      fuel 1 ([] ++ items.map (toStateProtectedBranch convert)) (by omega)
      (by push_cast at hfuel ⊢; omega)
    simp only [Nat.cast_one] at h
    rw [h, List.range_succ_eq_map fuel]
    simp only [List.map_cons, List.map_map, Nat.zero_add, Nat.cast_one, Prod.mk.injEq,
      List.cons.injEq, true_and, and_true]
    apply List.map_congr_left
    intro i _
    simp only [Function.comp, Nat.succ_eq_add_one]
    congr 1
    omega

theorem splitChars_of_not_mem (sep : Char) (cs : List Char) (h : sep ∉ cs) :
    splitChars sep cs = [cs] := by
  induction cs with
  | nil => rfl
  | cons c cs ih =>
    have hc : c ≠ sep := fun e => h (by simp [e])
    have hcs : sep ∉ cs := fun e => h (by simp [e])
    simp [splitChars, hc, ih hcs]

theorem splitChars_append_sep (sep : Char) (a b : List Char) (h : sep ∉ a) :
    splitChars sep (a ++ sep :: b) = a :: splitChars sep b := by
  induction a with
  | nil => simp [splitChars]
  | cons c cs ih =>
    have hc : c ≠ sep := fun e => h (by simp [e])
    have hcs : sep ∉ cs := fun e => h (by simp [e])
    simp [splitChars, hc, ih hcs]

theorem splitChars_length (sep : Char) (cs : List Char) :
    (splitChars sep cs).length = cs.count sep + 1 := by
  induction cs with
  | nil => rfl
  | cons c cs ih =>
    by_cases hc : c = sep
    · subst hc
      simp [splitChars, ih]
    · cases hs : splitChars sep cs with
      | nil => rw [hs] at ih; simp at ih
      | cons p ps =>
        rw [hs] at ih
        simp only [List.length_cons] at ih
        simp [splitChars, hc, hs, List.count_cons, ih]

/-- Decoding the `:`-join of two parts gives the two parts back exactly when
neither holds a `:`. -/
theorem parseTwoPartID_buildTwoPartID_iff (a b : String) :
    parseTwoPartID (buildTwoPartID a b) = Except.ok (a, b) ↔ ':' ∉ a.data ∧ ':' ∉ b.data := by
  have hdata : (buildTwoPartID a b).data = a.data ++ ':' :: b.data := by
    simp [buildTwoPartID, String.data_append]
  constructor
  · intro h
    have hlen : (Split (buildTwoPartID a b) ':').length = 2 := by
      unfold parseTwoPartID at h
      split at h
      · rename_i hs
        rw [hs]; rfl
      · cases h
    simp only [Split, List.length_map, splitChars_length, hdata, List.count_append,
      List.count_cons_self] at hlen
    have ha : a.data.count ':' = 0 := by omega
    have hb : b.data.count ':' = 0 := by omega
    exact ⟨List.count_eq_zero.mp ha, List.count_eq_zero.mp hb⟩
  · rintro ⟨ha, hb⟩
    simp [parseTwoPartID, Split, hdata, splitChars_append_sep _ _ _ ha,
      splitChars_of_not_mem _ _ hb]

/-- C6, as amended: after a successful remote create that returns the
environment name `e` for the declared project `p`, where neither `p` nor `e`
holds a `:`, Create stores the `:`-join of `(p, e)` as the identity and goes on
as Read does from there, and decoding that identity with `parseTwoPartID`
succeeds with exactly `(p, e)`. -/
theorem create_identity_decodes_without_colon (nameToValue : List (String × Int))
    (valueToName : List (Int × String)) (d : ResourceData) (client : Client)
    (protectedEnvironment : ProtectedEnvironment) (resp : Response)
    (hcreate : client.ProtectRepositoryEnvironments (d.GetString "project")
        { Name := some (d.GetString "environment"),
          DeployAccessLevels := (expandDeployAccessLevels nameToValue
            (d.GetDeployAccessLevels "deploy_access_levels")).1 } =
      Call.ok protectedEnvironment resp)
    (hp : ':' ∉ (d.GetString "project").data)
    (he : ':' ∉ protectedEnvironment.Name.data) :
    resourceGitlabProjectProtectedEnvironmentCreate nameToValue valueToName d client =
        resourceGitlabProjectProtectedEnvironmentRead valueToName
          (d.SetId (d.GetString "project" ++ ":" ++ protectedEnvironment.Name)) client ∧
      (d.SetId (d.GetString "project" ++ ":" ++ protectedEnvironment.Name)).Id =
        d.GetString "project" ++ ":" ++ protectedEnvironment.Name ∧
      parseTwoPartID (d.GetString "project" ++ ":" ++ protectedEnvironment.Name) =
        Except.ok (d.GetString "project", protectedEnvironment.Name) := by
  refine ⟨?_, rfl, (parseTwoPartID_buildTwoPartID_iff _ _).mpr ⟨hp, he⟩⟩
  unfold resourceGitlabProjectProtectedEnvironmentCreate
  simp only [expandDeployAccessLevels] at hcreate ⊢
  simp only [hcreate, buildTwoPartID]

/-- Witness of C6: project `42` and environment `production` are stored as
`42:production`, which decodes to `("42", "production")`, and the Read that
Create ends with surfaces the one deploy access level `maintainer`. -/
theorem create_identity_decodes_without_colon_witness :
    (resourceGitlabProjectProtectedEnvironmentCreate sampleNameToValue sampleValueToName
        (protectedEnvironmentData "42" "production" [maintainerLevel]) environmentClient).1.Id =
      "42:production" ∧
    parseTwoPartID "42:production" = Except.ok ("42", "production") ∧
    (resourceGitlabProjectProtectedEnvironmentCreate sampleNameToValue sampleValueToName
        (protectedEnvironmentData "42" "production" [maintainerLevel]) environmentClient).1.Get
      "deploy_access_levels" =
      some (Value.deployAccessLevels
        [{ access_level := some "maintainer", access_level_description := some "Maintainers",
           user_id := none, group_id := none }]) :=
  have h := create_identity_decodes_without_colon sampleNameToValue sampleValueToName
    (protectedEnvironmentData "42" "production" [maintainerLevel]) environmentClient
    { Name := "production", DeployAccessLevels := [maintainerDescription] } (pageResponse 1 1) rfl
    (by decide) (by decide)
  ⟨by rw [h.1]; decide, h.2.2, by rw [h.1]; decide⟩

/-- Counterexample to C6 as stated: for the project `a:b` and the environment
`c` Create stores `a:b:c`, which `parseTwoPartID` does not decode to
`("a:b", "c")`: it rejects it, and so does the Read that Create ends with. The
same identity comes from the project `a` and the environment `b:c`. -/
theorem create_identity_with_colon_does_not_decode :
    resourceGitlabProjectProtectedEnvironmentCreate sampleNameToValue sampleValueToName
        (protectedEnvironmentData "a:b" "c" [maintainerLevel]) environmentClient =
      ((protectedEnvironmentData "a:b" "c" [maintainerLevel]).SetId "a:b:c",
        some (Error.unexpectedIDFormat "a:b:c")) ∧
    "a:b" ++ ":" ++ "c" = "a:b:c" ∧
    parseTwoPartID "a:b:c" = Except.error (Error.unexpectedIDFormat "a:b:c") ∧
    resourceGitlabProjectProtectedEnvironmentCreate sampleNameToValue sampleValueToName
        (protectedEnvironmentData "a" "b:c" [maintainerLevel]) environmentClient =
      ((protectedEnvironmentData "a" "b:c" [maintainerLevel]).SetId "a:b:c",
        some (Error.unexpectedIDFormat "a:b:c")) := by
  decide

/-- C7: for an identity that decodes to `(project, environment)` and a remote
Get that fails: with a response of status 404 Read empties the identity and
returns no error; in every other case (another status, or no response) Read
returns an error and leaves the identity as it was. -/
theorem environmentRead_on_failed_get (valueToName : List (Int × String)) (d : ResourceData)
    (client : Client) (project environment : String) (resp : Option Response) (err : Error)
    (hid : parseTwoPartID d.Id = Except.ok (project, environment))
    (hget : client.GetProtectedEnvironment project environment = Call.fail resp err) :
    ((∃ r, resp = some r ∧ r.StatusCode = 404) →
        (resourceGitlabProjectProtectedEnvironmentRead valueToName d client).1.Id = "" ∧
        (resourceGitlabProjectProtectedEnvironmentRead valueToName d client).2 = none) ∧
      ((∀ r, resp = some r → r.StatusCode ≠ 404) →
        (resourceGitlabProjectProtectedEnvironmentRead valueToName d client).1.Id = d.Id ∧
        (resourceGitlabProjectProtectedEnvironmentRead valueToName d client).2 =
          some (Error.gettingProtectedEnvironment project environment err)) := by
  unfold resourceGitlabProjectProtectedEnvironmentRead
  simp only [hid, hget]
  constructor
  · rintro ⟨r, rfl, hr⟩
    simp [StatusNotFound, hr, ResourceData.SetId]
  · intro h
    cases resp with
    | none => simp [Set_Id]
    | some r => simp [StatusNotFound, h r rfl, Set_Id]

/-- Witness of C7: for the identity `42:production`, a Get that fails with 404
empties the identity without an error, one that fails with 500 or without a
response gives an error and keeps the identity. -/
theorem environmentRead_on_failed_get_witness :
    ((resourceGitlabProjectProtectedEnvironmentRead sampleValueToName
          (storedEnvironmentData "42:production") (environmentGetFails 404)).1.Id = "" ∧
      (resourceGitlabProjectProtectedEnvironmentRead sampleValueToName
          (storedEnvironmentData "42:production") (environmentGetFails 404)).2 = none) ∧
    ((resourceGitlabProjectProtectedEnvironmentRead sampleValueToName
          (storedEnvironmentData "42:production") (environmentGetFails 500)).1.Id =
        (storedEnvironmentData "42:production").Id ∧
      (resourceGitlabProjectProtectedEnvironmentRead sampleValueToName
          (storedEnvironmentData "42:production") (environmentGetFails 500)).2 =
        some (Error.gettingProtectedEnvironment "42" "production" (Error.remote 500))) ∧
    ((resourceGitlabProjectProtectedEnvironmentRead sampleValueToName
          (storedEnvironmentData "42:production") failingClient).1.Id =
        (storedEnvironmentData "42:production").Id ∧
      (resourceGitlabProjectProtectedEnvironmentRead sampleValueToName
          (storedEnvironmentData "42:production") failingClient).2 =
        some (Error.gettingProtectedEnvironment "42" "production" (Error.remote 0))) :=
  ⟨(environmentRead_on_failed_get sampleValueToName (storedEnvironmentData "42:production")
      (environmentGetFails 404) "42" "production" _ _ (by decide) rfl).1 ⟨_, rfl, rfl⟩,
    (environmentRead_on_failed_get sampleValueToName (storedEnvironmentData "42:production")
      (environmentGetFails 500) "42" "production" _ _ (by decide) rfl).2
        (fun r hr => by cases hr; decide),
    (environmentRead_on_failed_get sampleValueToName (storedEnvironmentData "42:production")
      failingClient "42" "production" _ _ (by decide) rfl).2 (fun r hr => by cases hr)⟩

theorem scanFreezePeriods_none (freezePeriodID : Int) (freezePeriods : List FreezePeriod)
    (d : ResourceData) (h : ∀ fp ∈ freezePeriods, fp.ID ≠ freezePeriodID) :
    scanFreezePeriods freezePeriodID freezePeriods d = (d, false) := by
  induction freezePeriods with
  | nil => rfl
  | cons fp rest ih =>
    have h1 : fp.ID ≠ freezePeriodID := h fp (by simp)
    have h2 : ∀ x ∈ rest, x.ID ≠ freezePeriodID := fun x hx => h x (by simp [hx])
    simp [scanFreezePeriods, h1, ih h2]

/-- When every listing request succeeds and no listed freeze period has the ID
of the identity, the read of a freeze period leaves the data as it was, the
identity included, and what it returns, if it returns, is an error. -/
theorem freezePeriodRead_absent_in_general (fuel : Nat) (d : ResourceData) (client : Client)
    (freezePeriodID : Int)
    (hid : Atoi d.Id = (freezePeriodID, none))
    (hlist : ∀ opt, ∃ freezePeriods resp,
      client.ListFreezePeriods (d.GetString "project") opt = Call.ok freezePeriods resp ∧
        ∀ fp ∈ freezePeriods, fp.ID ≠ freezePeriodID) :
    resourceGitlabProjectFreezePeriodRead fuel d client =
        (d, Outcome.returned (some (Error.freezePeriodNoLongerExists freezePeriodID))) ∨
      resourceGitlabProjectFreezePeriodRead fuel d client = (d, Outcome.outOfFuel) := by
  have hloop : ∀ (fuel : Nat) (opt : ListFreezePeriodsOptions),
      listFreezePeriodsLoop client (d.GetString "project") freezePeriodID fuel opt d =
          (d, FreezeLoopEnd.left false) ∨
        listFreezePeriodsLoop client (d.GetString "project") freezePeriodID fuel opt d =
          (d, FreezeLoopEnd.outOfFuel) := by
    intro fuel
    induction fuel with
    | zero => intro opt; right; rfl
    | succ fuel ih =>
      intro opt
      obtain ⟨fps, resp, hcall, hnone⟩ := hlist opt
      unfold listFreezePeriodsLoop
      simp only [hcall, scanFreezePeriods_none _ _ _ hnone]
      by_cases hlast : resp.CurrentPage ≥ resp.TotalPages
      · left; simp [hlast]
      · simpa [hlast] using ih _
  unfold resourceGitlabProjectFreezePeriodRead
  simp only [hid]
  rcases hloop fuel { Page := 1, PerPage := 20 } with h | h
  · left; rw [h]
  · right; rw [h]

/-- C8, evaluated at the identity `7` against a project whose two pages list
the freeze periods 1, 2 and 3: the read returns the error
`FreezePeriod 7 no longer exists in gitlab` and the identity is still `7`,
where the claim has the identity emptied and no error. -/
theorem freezePeriodRead_absent_returns_error :
    resourceGitlabProjectFreezePeriodRead 5 (freezePeriodData "7") twoFreezePagesClient =
      (freezePeriodData "7", Outcome.returned (some (Error.freezePeriodNoLongerExists 7))) ∧
    (resourceGitlabProjectFreezePeriodRead 5 (freezePeriodData "7") twoFreezePagesClient).1.Id =
      "7" := by
  decide

/-- The fields of the user schema that are not marked `ForceNew`. -/
theorem resourceGitlabUser_mutableKeys :
    mutableKeys resourceGitlabUserSchema =
      ["username", "password", "name", "is_admin", "can_create_group", "confirm",
        "projects_limit"] := by
  decide

/-- Counterexample to C9 as stated: `password` and `confirm` are not marked
`ForceNew` and their declared values differ from the last-known ones, yet the
`ModifyUser` payload populates neither: it populates no field at all. -/
theorem userUpdate_omits_password_and_confirm :
    "password" ∈ mutableKeys resourceGitlabUserSchema ∧
    "confirm" ∈ mutableKeys resourceGitlabUserSchema ∧
    passwordAndConfirmChanged.HasChange "password" = true ∧
    passwordAndConfirmChanged.HasChange "confirm" = true ∧
    (resourceGitlabUserUpdate passwordAndConfirmChanged failingClient).2.1.2.field "password" =
      none ∧
    (resourceGitlabUserUpdate passwordAndConfirmChanged failingClient).2.1.2.field "confirm" =
      none ∧
    (resourceGitlabUserUpdate passwordAndConfirmChanged failingClient).2.1 =
      (12, { Email := none, Password := none, Username := none, Name := none,
             ProjectsLimit := none, Admin := none, CanCreateGroup := none,
             SkipReconfirmation := none }) := by
  decide

/-- C9, as amended: for every previous state and declared configuration, the
`ModifyUser` payload populates, among `Name`, `Username`, `Admin`,
`CanCreateGroup` and `ProjectsLimit`, exactly the fields whose schema field
(`name`, `username`, `is_admin`, `can_create_group`, `projects_limit`) has a
declared value that differs from the last-known one, each with the declared
value; `Email` and `SkipReconfirmation` are never populated, and `confirm` has
no field in the payload. -/
theorem userUpdate_payload (d : ResourceData) (client : Client) :
    (resourceGitlabUserUpdate d client).2.1.2.Name =
        (if d.HasChange "name" then some (d.GetString "name") else none) ∧
      (resourceGitlabUserUpdate d client).2.1.2.Username =
        (if d.HasChange "username" then some (d.GetString "username") else none) ∧
      (resourceGitlabUserUpdate d client).2.1.2.Admin =
        (if d.HasChange "is_admin" then some (d.GetBool "is_admin") else none) ∧
      (resourceGitlabUserUpdate d client).2.1.2.CanCreateGroup =
        (if d.HasChange "can_create_group" then some (d.GetBool "can_create_group")
          else none) ∧
      (resourceGitlabUserUpdate d client).2.1.2.ProjectsLimit =
        (if d.HasChange "projects_limit" then some (d.GetInt "projects_limit") else none) ∧
      (resourceGitlabUserUpdate d client).2.1.2.Email = none ∧
      (resourceGitlabUserUpdate d client).2.1.2.SkipReconfirmation = none ∧
      (resourceGitlabUserUpdate d client).2.1.2.field "confirm" = none := by
  have hsent : (resourceGitlabUserUpdate d client).2.1.2 = resourceGitlabUserUpdateOptions d := by
    unfold resourceGitlabUserUpdate
    simp only
    split <;> rfl
  rw [hsent]
  unfold resourceGitlabUserUpdateOptions
  refine ⟨?_, ?_, ?_, ?_, ?_, ?_, ?_, ?_⟩ <;>
    (simp only []; repeat' split) <;> rfl

/-- An instance of C9 as amended: when the declared `name` and `projects_limit`
differ from the last-known values, the payload populates `Name` and
`ProjectsLimit` with the declared values and nothing else. -/
theorem userUpdate_payload_name_and_limit :
    (resourceGitlabUserUpdate nameAndLimitChanged failingClient).2.1 =
      (12, { Email := none, Password := none, Username := none, Name := some "Jane Doe",
             ProjectsLimit := some 5, Admin := none, CanCreateGroup := none,
             SkipReconfirmation := none }) := by
  decide

/-- The loop of `expandDeployAccessLevels` appends one option per record, in
order. -/
theorem expandDeployAccessLevelsLoop_eq (nameToValue : List (String × Int))
    (vs : List DeployAccessLevel) (result : List EnvironmentAccessOptions) :
    expandDeployAccessLevelsLoop nameToValue vs result =
      result ++ vs.map (fun opts =>
        match opts.access_level with
        | some accessLevel =>
          { AccessLevel := some (mapIndex nameToValue accessLevel 0), UserID := none,
            GroupID := none }
        | none =>
          match opts.user_id with
          | some userID => { AccessLevel := none, UserID := some userID, GroupID := none }
          | none =>
            match opts.group_id with
            | some groupID => { AccessLevel := none, UserID := none, GroupID := some groupID }
            | none => { AccessLevel := none, UserID := none, GroupID := none }) := by
  induction vs generalizing result with
  | nil => simp [expandDeployAccessLevelsLoop]
  | cons opts vs ih =>
    unfold expandDeployAccessLevelsLoop
    simp only [ih, List.map_cons, List.append_assoc, List.singleton_append]

/-- C10: `expandDeployAccessLevels` returns no error and a list of the length
of its input; the entry at each index comes from the record at that index and
populates at most one of `AccessLevel`, `UserID`, `GroupID`: the translation of
`access_level` through the name-to-value table when the record has one,
whatever else it has; else its `user_id` unchanged when it has one, whatever
its `group_id`; else its `group_id` unchanged when it has one; else nothing. -/
theorem expandDeployAccessLevels_first_present (nameToValue : List (String × Int))
    (vs : List DeployAccessLevel) :
    (expandDeployAccessLevels nameToValue vs).2 = none ∧
      (expandDeployAccessLevels nameToValue vs).1.length = vs.length ∧
      ∀ (i : Nat) (opts : DeployAccessLevel), vs[i]? = some opts →
        ∃ o : EnvironmentAccessOptions,
          (expandDeployAccessLevels nameToValue vs).1[i]? = some o ∧
          (o.AccessLevel.isSome.toNat + o.UserID.isSome.toNat + o.GroupID.isSome.toNat ≤ 1) ∧
          (∀ accessLevel, opts.access_level = some accessLevel →
            o = { AccessLevel := some (mapIndex nameToValue accessLevel 0), UserID := none,
                  GroupID := none }) ∧
          (∀ userID, opts.access_level = none → opts.user_id = some userID →
            o = { AccessLevel := none, UserID := some userID, GroupID := none }) ∧
          (∀ groupID, opts.access_level = none → opts.user_id = none →
            opts.group_id = some groupID →
            o = { AccessLevel := none, UserID := none, GroupID := some groupID }) ∧
          (opts.access_level = none → opts.user_id = none → opts.group_id = none →
            o = { AccessLevel := none, UserID := none, GroupID := none }) := by
  refine ⟨rfl, ?_, ?_⟩
  · simp [expandDeployAccessLevels, expandDeployAccessLevelsLoop_eq]
  · intro i opts hi
    simp only [expandDeployAccessLevels, expandDeployAccessLevelsLoop_eq, List.nil_append,
      List.getElem?_map, hi, Option.map_some']
    refine ⟨_, rfl, ?_⟩
    rcases opts with ⟨_ | a, desc, _ | u, _ | g⟩ <;> simp

/-- Witness of C10: a role-based, a user-based and a group-based record, a
record with all three fields and a record with none expand to five entries in
that order: the role value 40, the user 7, the group 9, the role value 30
alone, and nothing. -/
theorem expandDeployAccessLevels_first_present_witness :
    expandDeployAccessLevels sampleNameToValue sampleLevels =
      ([{ AccessLevel := some 40, UserID := none, GroupID := none },
        { AccessLevel := none, UserID := some 7, GroupID := none },
        { AccessLevel := none, UserID := none, GroupID := some 9 },
        { AccessLevel := some 30, UserID := none, GroupID := none },
        { AccessLevel := none, UserID := none, GroupID := none }], none) ∧
    (expandDeployAccessLevels sampleNameToValue sampleLevels).1.length = sampleLevels.length ∧
    (∃ o : EnvironmentAccessOptions,
      (expandDeployAccessLevels sampleNameToValue sampleLevels).1[3]? = some o ∧
      o = { AccessLevel := some (mapIndex sampleNameToValue "developer" 0), UserID := none,
            GroupID := none }) :=
  ⟨by decide,
    (expandDeployAccessLevels_first_present sampleNameToValue sampleLevels).2.1,
    match (expandDeployAccessLevels_first_present sampleNameToValue sampleLevels).2.2 3
      { access_level := some "developer", access_level_description := none, user_id := some 7,
        group_id := some 9 } rfl with
    | ⟨o, ho, _, hrole, _⟩ => ⟨o, ho, hrole "developer" rfl⟩⟩

/-- The loop of `flattenDeployAccessLevels` appends one record per description,
in order. -/
theorem flattenDeployAccessLevelsLoop_eq (valueToName : List (Int × String))
    (vs : List EnvironmentAccessDescription) (result : List DeployAccessLevel) :
    flattenDeployAccessLevelsLoop valueToName vs result =
      result ++ vs.map (fun accessDescription =>
        { access_level := some (mapIndex valueToName accessDescription.AccessLevel "")
          access_level_description := some accessDescription.AccessLevelDescription
          user_id :=
            if accessDescription.UserID ≠ 0 then some accessDescription.UserID else none
          group_id :=
            if accessDescription.GroupID ≠ 0 then some accessDescription.GroupID else none }) := by
  induction vs generalizing result with
  | nil => simp [flattenDeployAccessLevelsLoop]
  | cons v vs ih =>
    unfold flattenDeployAccessLevelsLoop
    simp only [ih, List.map_cons, List.append_assoc, List.singleton_append]


/-- Counterexample to C12 as stated: when the remote create fails with a
response of status 404 and the error `remote 404`, Create returns another
error, `feature Protected Environments is not available`. -/
theorem environmentCreate_replaces_404_error :
    (environmentCreateFails (some 404)).ProtectRepositoryEnvironments "42"
        { Name := some "production",
          DeployAccessLevels := [{ AccessLevel := some 40, UserID := none, GroupID := none }] } =
      Call.fail (some { StatusCode := 404, TotalPages := 0, CurrentPage := 0, NextPage := 0 })
        (Error.remote 404) ∧
    resourceGitlabProjectProtectedEnvironmentCreate sampleNameToValue sampleValueToName
        (protectedEnvironmentData "42" "production" [maintainerLevel])
        (environmentCreateFails (some 404)) =
      (protectedEnvironmentData "42" "production" [maintainerLevel],
        some Error.featureNotAvailable) := by
  decide

/-- C12, as amended: for every configuration and every failure of the remote
create call, Create returns with the data as it was (no identity set) whatever
the rest of the client would answer (Read is not invoked); it returns exactly
the error of the remote call when there is no response or a response of a
status other than 404, and the error
`feature Protected Environments is not available` on a response of status 404. -/
theorem environmentCreate_on_failed_create (nameToValue : List (String × Int))
    (valueToName : List (Int × String)) (d : ResourceData) (client : Client)
    (resp : Option Response) (err : Error)
    (hcreate : client.ProtectRepositoryEnvironments (d.GetString "project")
        { Name := some (d.GetString "environment"),
          DeployAccessLevels := (expandDeployAccessLevels nameToValue
            (d.GetDeployAccessLevels "deploy_access_levels")).1 } =
      Call.fail resp err) :
    ((∀ r, resp = some r → r.StatusCode ≠ 404) →
        resourceGitlabProjectProtectedEnvironmentCreate nameToValue valueToName d client =
          (d, some err)) ∧
      ((∃ r, resp = some r ∧ r.StatusCode = 404) →
        resourceGitlabProjectProtectedEnvironmentCreate nameToValue valueToName d client =
          (d, some Error.featureNotAvailable)) := by
  unfold resourceGitlabProjectProtectedEnvironmentCreate
  simp only [expandDeployAccessLevels] at hcreate ⊢
  simp only [hcreate]
  constructor
  · intro h
    cases resp with
    | none => rfl
    | some r => simp [StatusNotFound, h r rfl]
  · rintro ⟨r, rfl, hr⟩
    simp [StatusNotFound, hr]

/-- Witness of C12: against a client whose Get would succeed, a create that
fails with status 500, and one that fails without a response, give back that
error and the data as it was; one that fails with status 404 gives
`feature Protected Environments is not available`. -/
theorem environmentCreate_on_failed_create_witness :
    resourceGitlabProjectProtectedEnvironmentCreate sampleNameToValue sampleValueToName
        (protectedEnvironmentData "42" "production" [maintainerLevel])
        (environmentCreateFails (some 500)) =
      (protectedEnvironmentData "42" "production" [maintainerLevel],
        some (Error.remote 500)) ∧
    resourceGitlabProjectProtectedEnvironmentCreate sampleNameToValue sampleValueToName
        (protectedEnvironmentData "42" "production" [maintainerLevel])
        (environmentCreateFails none) =
      (protectedEnvironmentData "42" "production" [maintainerLevel], some (Error.remote 0)) ∧
    resourceGitlabProjectProtectedEnvironmentCreate sampleNameToValue sampleValueToName
        (protectedEnvironmentData "42" "production" [maintainerLevel])
        (environmentCreateFails (some 404)) =
      (protectedEnvironmentData "42" "production" [maintainerLevel],
        some Error.featureNotAvailable) :=
  ⟨(environmentCreate_on_failed_create sampleNameToValue sampleValueToName
      (protectedEnvironmentData "42" "production" [maintainerLevel])
      (environmentCreateFails (some 500)) _ _ rfl).1 (fun r hr => by cases hr; decide),
    (environmentCreate_on_failed_create sampleNameToValue sampleValueToName
      (protectedEnvironmentData "42" "production" [maintainerLevel])
      (environmentCreateFails none) _ _ rfl).1 (fun r hr => by cases hr),
    (environmentCreate_on_failed_create sampleNameToValue sampleValueToName
      (protectedEnvironmentData "42" "production" [maintainerLevel])
      (environmentCreateFails (some 404)) _ _ rfl).2 ⟨_, rfl, rfl⟩⟩

/-- The identity the importer of a pipeline schedule variable stores is the
`:`-join of the middle part as it was written and the key. -/
theorem scheduleVariableImporter_identity (d : ResourceData) (p s k : String) (n : Int)
    (hschema : d.schema = resourceGitlabPipelineScheduleVariableSchema)
    (hsplit : Split d.Id ':' = [p, s, k])
    (hatoi : Atoi s = (n, none)) :
    (resourceGitlabPipelineScheduleVariableImporter d).1.Id = buildTwoPartID s k := by
  simp [resourceGitlabPipelineScheduleVariableImporter, hsplit, hatoi, ResourceData.Set,
    ResourceData.SetId, hschema, resourceGitlabPipelineScheduleVariableSchema,
    List.lookup, Schema.ofType, Value.typ]

/-- The identity the create of a pipeline schedule variable stores is the
`:`-join of the decimal rendering of the schedule ID and the key the remote
system returned; Read runs from there. -/
theorem scheduleVariableCreate_identity (d : ResourceData) (client : Client)
    (scheduleVar : PipelineVariable) (resp : Response)
    (hcreate : client.CreatePipelineScheduleVariable (d.GetString "project")
        (d.GetInt "pipeline_schedule_id")
        { Key := some (d.GetString "key"), Value := some (d.GetString "value") } =
      Call.ok scheduleVar resp) :
    resourceGitlabPipelineScheduleVariableCreate d client =
      resourceGitlabPipelineScheduleVariableRead
        (d.SetId (buildTwoPartID (Itoa (d.GetInt "pipeline_schedule_id")) scheduleVar.Key))
        client := by
  unfold resourceGitlabPipelineScheduleVariableCreate
  simp only [hcreate]

/-- C13, evaluated at the accepted identifiers `10:055:MY_VAR` and
`10:+55:MY_VAR`: the importer records the schedule 55 and the key `MY_VAR` and
stores the identities `055:MY_VAR` and `+55:MY_VAR`, where Create, run on the
data the importer left, stores `55:MY_VAR`. -/
theorem scheduleVariableImporter_identity_differs_from_create :
    (resourceGitlabPipelineScheduleVariableImporter
        (scheduleVariableToImport "10:055:MY_VAR")).1.Id = "055:MY_VAR" ∧
    (resourceGitlabPipelineScheduleVariableImporter
        (scheduleVariableToImport "10:055:MY_VAR")).1.GetInt "pipeline_schedule_id" = 55 ∧
    (resourceGitlabPipelineScheduleVariableImporter
        (scheduleVariableToImport "10:055:MY_VAR")).1.GetString "key" = "MY_VAR" ∧
    resourceGitlabPipelineScheduleVariableCreate
        (resourceGitlabPipelineScheduleVariableImporter
          (scheduleVariableToImport "10:055:MY_VAR")).1 scheduleVariableClient =
      ((resourceGitlabPipelineScheduleVariableCreate
        (resourceGitlabPipelineScheduleVariableImporter
          (scheduleVariableToImport "10:055:MY_VAR")).1 scheduleVariableClient).1, none) ∧
    (resourceGitlabPipelineScheduleVariableCreate
        (resourceGitlabPipelineScheduleVariableImporter
          (scheduleVariableToImport "10:055:MY_VAR")).1 scheduleVariableClient).1.Id =
      "55:MY_VAR" ∧
    (resourceGitlabPipelineScheduleVariableImporter
        (scheduleVariableToImport "10:+55:MY_VAR")).1.Id = "+55:MY_VAR" ∧
    (resourceGitlabPipelineScheduleVariableCreate
        (resourceGitlabPipelineScheduleVariableImporter
          (scheduleVariableToImport "10:+55:MY_VAR")).1 scheduleVariableClient).1.Id =
      "55:MY_VAR" ∧
    (resourceGitlabPipelineScheduleVariableImporter
        (scheduleVariableToImport "10:55:MY_VAR")).1.Id = "55:MY_VAR" := by
  decide

/-- Whatever the data holds, `expandDeployAccessLevels` on the list that
`d.Get` reads never populates `UserID` or `GroupID`: every element is read with
the key `access_level`, so the first test of the loop always holds and the two
`else if` branches are never taken. -/
theorem expand_of_read_levels_drops_ids (nameToValue : List (String × Int)) (d : ResourceData)
    (key : String) :
    ∀ o ∈ (expandDeployAccessLevels nameToValue (d.GetDeployAccessLevels key)).1,
      o.AccessLevel.isSome = true ∧ o.UserID = none ∧ o.GroupID = none := by
  intro o ho
  simp only [expandDeployAccessLevels, expandDeployAccessLevelsLoop_eq, List.nil_append,
    List.mem_map] at ho
  obtain ⟨v, hv, rfl⟩ := ho
  unfold ResourceData.GetDeployAccessLevels at hv
  split at hv
  · simp only [List.mem_map] at hv
    obtain ⟨w, _, rfl⟩ := hv
    simp [DeployAccessLevel.withEveryKey]
  · simp at hv

/-- C11, evaluated at a configuration that declares one role-based record
(`maintainer`), one user-based record (user 7) and one group-based record
(group 9): `d.Get` reads every record with all the keys of the element schema,
`expandDeployAccessLevels` emits the role value 40 for the first and the zero
level, without an ID, for the other two, and flattening the remote descriptions
of what was emitted gives back neither the user 7 nor the group 9, where the
claim has each record come back with its addressing mode and value. -/
theorem flatten_expand_loses_user_and_group :
    (protectedEnvironmentData "42" "production" sampleThreeModes).GetDeployAccessLevels
        "deploy_access_levels" =
      [{ access_level := some "maintainer", access_level_description := some "",
         user_id := some 0, group_id := some 0 },
       { access_level := some "", access_level_description := some "",
         user_id := some 7, group_id := some 0 },
       { access_level := some "", access_level_description := some "",
         user_id := some 0, group_id := some 9 }] ∧
    expandDeployAccessLevels sampleNameToValue
        ((protectedEnvironmentData "42" "production" sampleThreeModes).GetDeployAccessLevels
          "deploy_access_levels") =
      ([{ AccessLevel := some 40, UserID := none, GroupID := none },
        { AccessLevel := some 0, UserID := none, GroupID := none },
        { AccessLevel := some 0, UserID := none, GroupID := none }], none) ∧
    flattenDeployAccessLevels valueToNameWithNoOne
        ((expandDeployAccessLevels sampleNameToValue
          ((protectedEnvironmentData "42" "production" sampleThreeModes).GetDeployAccessLevels
            "deploy_access_levels")).1.map (describeOptions sampleDescribe)) =
      [{ access_level := some "maintainer", access_level_description := some "",
         user_id := none, group_id := none },
       { access_level := some "no one", access_level_description := some "",
         user_id := none, group_id := none },
       { access_level := some "no one", access_level_description := some "",
         user_id := none, group_id := none }] ∧
    flattenDeployAccessLevels sampleValueToName
        ((expandDeployAccessLevels sampleNameToValue
          ((protectedEnvironmentData "42" "production" sampleThreeModes).GetDeployAccessLevels
            "deploy_access_levels")).1.map (describeOptions sampleDescribe)) =
      [{ access_level := some "maintainer", access_level_description := some "",
         user_id := none, group_id := none },
       { access_level := some "", access_level_description := some "",
         user_id := none, group_id := none },
       { access_level := some "", access_level_description := some "",
         user_id := none, group_id := none }] := by
  decide

/-- The model of `strconv.Atoi` at the ends of its range and on input that is
out of range before a character that is not a digit. -/
theorem Atoi_range_examples :
    Atoi "9223372036854775807" = (maxInt, none) ∧
    Atoi "9223372036854775808" = (maxInt, some (Error.atoiRange "9223372036854775808")) ∧
    Atoi "-9223372036854775808" = (minInt, none) ∧
    Atoi "-9223372036854775809" = (minInt, some (Error.atoiRange "-9223372036854775809")) ∧
    Atoi "18446744073709551616x" =
      (maxInt, some (Error.atoiRange "18446744073709551616x")) ∧
    Atoi "-18446744073709551616x" =
      (minInt, some (Error.atoiRange "-18446744073709551616x")) ∧
    Atoi "18446744073709551615x" = (0, some (Error.atoiSyntax "18446744073709551615x")) ∧
    Atoi "9223372036854775808x" = (0, some (Error.atoiSyntax "9223372036854775808x")) ∧
    Atoi "" = (0, some (Error.atoiSyntax "")) ∧
    Atoi "+" = (0, some (Error.atoiSyntax "+")) := by
  decide

end Gitlab
